import Mathlib

/-!
Verification of arc-to-zen against its specification.

Shallow embedding of the arc-to-zen importer (Go) in Lean 4:

* the mozlz4 container codec (`src/mozlz4/mozlz4.go`);
* the data model (`types/arc.go`, `types/zen.go`);
* the identity allocator and tree-transformation engine
  (`importer/helpers.go` = `src/profiles/discovery.go` lines 202-810,
  `importer/importer.go` = `src/unnamed/part_003`).

Byte strings are `List Nat` (each element a byte value); Go `int` is `Int`;
Go maps are association lists with most-recently-inserted entry shadowing
earlier ones; Go's `uuid.New()`, `time.Now()` and the unspecified iteration
order of `range` over a map are modelled as explicit oracle inputs.
-/

namespace ArcToZen

/-! ## mozlz4 codec (src/mozlz4/mozlz4.go)

`headerMagic` is the byte string "mozLz40\x00". -/

def headerMagic : List Nat := [109, 111, 122, 76, 122, 52, 48, 0]

def headerSize : Nat := 8

def sizeBytes : Nat := 4

/-- `binary.LittleEndian.PutUint32` applied to `uint32(n)`: the four
little-endian bytes of `n mod 2^32`. -/
def putUint32LE (n : Nat) : List Nat :=
  [n % 256, n / 256 % 256, n / 65536 % 256, n / 16777216 % 256]

/-- `binary.LittleEndian.Uint32` on the first four bytes. -/
def readUint32LE : List Nat → Nat
  | b0 :: b1 :: b2 :: b3 :: _ => b0 + 256 * b1 + 65536 * b2 + 16777216 * b3
  | _ => 0

/-- Modelled from the spec: the LZ4 length-extension encoding used inside the
"single compressed block" of §4.1/§6.  The block codec itself is the external
dependency `github.com/pierrec/lz4/v4`, whose source is not part of this
repository; after a length nibble of 15, the remaining length is emitted as a
run of `255` bytes followed by one byte `< 255`, the decoder summing all of
them. -/
def lz4LenExt (n : Nat) : List Nat :=
  List.replicate (n / 255) 255 ++ [n % 255]

/-- Modelled from the spec: `lz4.CompressBlock` of the external dependency
`github.com/pierrec/lz4/v4` (not part of this repository).  The model emits
one maximal literal sequence, which is a valid LZ4 block for any input: a
token whose high nibble is `min length 15` and whose low nibble (match
length) is zero, the extended literal length when the nibble saturates, then
the literal bytes themselves. -/
def lz4CompressBlock (src : List Nat) : List Nat :=
  if src.length < 15 then (16 * src.length) :: src
  else 240 :: lz4LenExt (src.length - 15) ++ src

/-- Reads an LZ4 extended length: accumulate bytes, stopping at the first
byte `≠ 255`; `none` when the input runs out first. -/
def lz4ReadLenExt : List Nat → Option (Nat × List Nat)
  | [] => none
  | b :: rest =>
    if b = 255 then (lz4ReadLenExt rest).map (fun p => (255 + p.1, p.2))
    else some (b, rest)

/-- Copies `k` bytes from `offset` bytes before the end of `dst` onto the end
of `dst` (overlapping copies re-read freshly written bytes, as in LZ4). -/
def lz4MatchCopy (dst : List Nat) (offset : Nat) : Nat → List Nat
  | 0 => dst
  | k + 1 => lz4MatchCopy (dst ++ [dst.getD (dst.length - offset) 0]) offset k

/-- Reads a (literal or match) length from a token nibble, following with the
extended-length bytes when the nibble saturates at 15. -/
def lz4ReadLen (nib : Nat) (src : List Nat) : Option (Nat × List Nat) :=
  if nib = 15 then (lz4ReadLenExt src).map (fun p => (15 + p.1, p.2))
  else some (nib, src)

/-- Modelled from the spec: the block decoder of the external dependency
`github.com/pierrec/lz4/v4` (not part of this repository), decoding the full
LZ4 block format (sequences of literals and back references) into at most
`dstSize` bytes; `none` models every error return.  `fuel` dominates the
number of sequences; each sequence consumes at least the token byte, so
`src.length + 1` is always enough. -/
def lz4DecodeLoop (dstSize : Nat) : Nat → List Nat → List Nat → Option (List Nat)
  | 0, _, _ => none
  | _ + 1, [], _ => none
  | fuel + 1, b :: rest, dst =>
    match lz4ReadLen (b / 16) rest with
    | none => none
    | some (lLen, rest1) =>
      if rest1.length < lLen then none
      else if dstSize < dst.length + lLen then none
      else
        let dst1 := dst ++ rest1.take lLen
        match rest1.drop lLen with
        | [] => some dst1
        | o0 :: o1 :: rest3 =>
          let offset := o0 + 256 * o1
          if offset = 0 then none
          else if dst1.length < offset then none
          else
            match lz4ReadLen (b % 16) rest3 with
            | none => none
            | some (mLen0, rest4) =>
              let mLen := mLen0 + 4
              if dstSize < dst1.length + mLen then none
              else lz4DecodeLoop dstSize fuel rest4 (lz4MatchCopy dst1 offset mLen)
        | [_] => none

/-- Modelled from the spec: `lz4.UncompressBlock` (external dependency). -/
def lz4UncompressBlock (src : List Nat) (dstSize : Nat) : Option (List Nat) :=
  lz4DecodeLoop dstSize (src.length + 1) src []

/-- `Compress` (src/mozlz4/mozlz4.go lines 50-83): magic header, 4-byte
little-endian `uint32(len(data))`, then the compressed block. -/
def Compress (data : List Nat) : List Nat :=
  headerMagic ++ putUint32LE data.length ++ lz4CompressBlock data

/-- `Decompress` (src/mozlz4/mozlz4.go lines 21-46): checks length and magic,
reads the little-endian size, block-decompresses the rest into a buffer of
that size and returns the bytes actually written. -/
def Decompress (data : List Nat) : Except String (List Nat) :=
  if data.length < headerSize + sizeBytes then
    Except.error "data too short"
  else if data.take headerSize ≠ headerMagic then
    Except.error "invalid Mozilla LZ4 header"
  else
    let uncompressedSize := readUint32LE (data.drop headerSize)
    let compressedData := data.drop (headerSize + sizeBytes)
    match lz4UncompressBlock compressedData uncompressedSize with
    | none => Except.error "LZ4 decompression failed"
    | some out => Except.ok out

/-! ## Source data model (types/arc.go)

`[]interface{}` entries that can be strings or objects are modelled as a
tagged variant; JSON objects the Go code only tests for nil-ness are
`Option Unit`. -/

/-- An entry of `ArcSpace.ContainerIDs`: a string (item id or marker such as
"pinned"/"unpinned") or a non-string JSON value, which the code skips. -/
inductive ArcRawRef where
  | str (s : String)
  | obj
deriving DecidableEq

structure ArcTab where
  savedTitle : String
  savedURL : String
deriving DecidableEq

/-- `containerType` is `interface{}`; the code only checks it against nil. -/
structure ArcItemContainer where
  containerType : Option Unit
deriving DecidableEq

structure ArcItemData where
  tab : Option ArcTab
  itemContainer : Option ArcItemContainer
deriving DecidableEq

structure ArcItem where
  id : String
  title : String
  parentID : String
  childrenIds : List String
  data : Option ArcItemData
deriving DecidableEq

structure ArcIconType where
  icon : String
deriving DecidableEq

structure ArcCustomInfo where
  iconType : Option ArcIconType
deriving DecidableEq

/-- Modelled from the spec: the `Profile` field of `ArcSpace` ("a profile
reference (default, or a named custom profile)", §3).  The struct declaration
is missing from `types/arc.go` as shipped; its shape is fixed by the accesses
in `getProfileName` (src/profiles/discovery.go lines 394-405):
`Profile.Default`, `Profile.Custom.Data.DirectoryBasename`. -/
structure ArcProfileCustomData where
  directoryBasename : String
deriving DecidableEq

structure ArcProfileCustom where
  data : Option ArcProfileCustomData
deriving DecidableEq

structure ArcProfileRef where
  defaultTag : Option Unit
  custom : Option ArcProfileCustom
deriving DecidableEq

structure ArcSpace where
  id : String
  title : String
  icon : String
  color : String
  containerIDs : List ArcRawRef
  customInfo : Option ArcCustomInfo
  profile : Option ArcProfileRef
deriving DecidableEq

/-- An entry of the raw `spaces`/`items` arrays: `none` models the entries
`parseArcSpaces`/`parseArcItems` skip (non-objects, objects without an `id`,
re-marshal failures). -/
structure ArcContainer where
  spaces : List (Option ArcSpace)
  items : List (Option ArcItem)
deriving DecidableEq

structure ArcSidebar where
  containers : List ArcContainer
deriving DecidableEq

structure ArcData where
  sidebar : Option ArcSidebar
deriving DecidableEq

/-! ## Target data model (types/zen.go)

Interface-typed fields the importer always leaves nil (`zenPinnedIcon`,
`zenGlanceId`, `searchMode`, `color` on groups, the empty `attributes` map)
are omitted; `theme.opacity` is a float constant and is not modelled. -/

structure ZenTabEntry where
  url : String
  title : String
  triggeringPrincipalBase64 : String
deriving DecidableEq

/-- The `_zenPinnedInitialState` blob written for content tabs: the entry's
url/title plus the favicon image (or nil). -/
structure ZenPinnedInitialState where
  url : String
  title : String
  image : Option String
deriving DecidableEq

structure ZenTab where
  entries : List ZenTabEntry
  lastAccessed : Int
  pinned : Bool
  hidden : Bool
  zenWorkspace : String
  zenSyncId : String
  zenEssential : Bool
  zenDefaultUserContextId : Int
  zenIsEmpty : Bool
  zenHasStaticIcon : Bool
  zenIsGlance : Bool
  zenStaticLabel : String
  zenPinnedInitialState : Option ZenPinnedInitialState
  userContextId : Int
  index : Int
  userTypedValue : String
  userTypedClear : Int
  image : Option String
  groupId : String
deriving DecidableEq

/-- `prevSiblingInfo` is either nil or the JSON object
`{"type": "group", "id": folderID}`; only the folder id varies, so it is
modelled as `Option String`. -/
structure ZenFolder where
  pinned : Bool
  splitViewGroup : Bool
  id : String
  name : String
  collapsed : Bool
  saveOnWindowClose : Bool
  parentId : String
  prevSiblingInfo : Option String
  emptyTabIds : List String
  userIcon : String
  workspaceId : String
deriving DecidableEq

structure ZenGroup where
  id : String
  name : String
  collapsed : Bool
  pinned : Bool
  essential : Bool
  splitView : Bool
deriving DecidableEq

structure ZenTheme where
  type : String
deriving DecidableEq

structure ZenSpace where
  uuid : String
  name : String
  icon : String
  containerTabId : Int
  position : Int
  theme : ZenTheme
  hasCollapsedPinnedTabs : Bool
deriving DecidableEq

structure ZenSession where
  spaces : List ZenSpace
  tabs : List ZenTab
  folders : List ZenFolder
  groups : List ZenGroup
  lastCollected : Int
deriving DecidableEq

structure ContainerIdentity where
  userContextId : Option Int
  name : String
  icon : String
  color : String
  public : Bool
  l10nId : String
  accessKey : String
deriving DecidableEq

structure ContainersData where
  version : Int
  lastUserContextId : Option Int
  identities : List ContainerIdentity
deriving DecidableEq

/-- `GetUserContextID` (types/zen.go): the id, or `0` when nil. -/
def ContainerIdentity.GetUserContextID (c : ContainerIdentity) : Int :=
  match c.userContextId with
  | none => 0
  | some id => id

/-- `HasValidUserContextID` (types/zen.go): non-nil and strictly positive. -/
def ContainerIdentity.HasValidUserContextID (c : ContainerIdentity) : Bool :=
  match c.userContextId with
  | none => false
  | some id => decide (0 < id)

/-! ## Collaborator interfaces (mappings/mappings.go, favicon)

The icon/color mapper and the favicon fetcher are external collaborators
(spec §1, §6); the engine is parametric in them. -/

structure Mappings where
  mapArcIconToContainerIcon : String → String
  mapArcColorToZen : String → String
  mapArcIconToSvg : String → String

/-! ## Importer helpers (importer/helpers.go) -/

def maxUint32 : Int := 4294967295

/-- `parseArcSpaces`: keep the entries that decode. -/
def parseArcSpaces (rawSpaces : List (Option ArcSpace)) : List ArcSpace :=
  rawSpaces.filterMap id

/-- `parseArcItems`: keep the entries that decode. -/
def parseArcItems (rawItems : List (Option ArcItem)) : List ArcItem :=
  rawItems.filterMap id

/-- `calculateNextContainerID`: one more than the running maximum of
`lastUserContextId` (0 when absent) and every identity's id (0 when nil) that
is not `maxUint32`. -/
def calculateNextContainerID (containersData : ContainersData) : Int :=
  let maxID : Int :=
    match containersData.lastUserContextId with
    | none => 0
    | some v => v
  (containersData.identities.foldl
    (fun maxID container =>
      let id := container.GetUserContextID
      if id != maxUint32 && maxID < id then id else maxID)
    maxID) + 1

/-- `findSpaceByName`: first workspace with the exact name. -/
def findSpaceByName (spaces : List ZenSpace) (name : String) : Option ZenSpace :=
  spaces.find? (fun s => s.name == name)

/-- `findContainerByName`: first container with the exact name and a valid
(non-nil, positive) id.  Note the `public` flag is not consulted. -/
def findContainerByName (containers : List ContainerIdentity) (name : String) :
    Option ContainerIdentity :=
  containers.find? (fun c => c.name == name && c.HasValidUserContextID)

/-- `filterTabs`: keep a tab unless it belongs to the workspace and is
pinned. -/
def filterTabs (tabs : List ZenTab) (workspaceUUID : String) : List ZenTab :=
  tabs.filter (fun tab => tab.zenWorkspace != workspaceUUID || !tab.pinned)

/-- `filterFolders`: keep the folders of all other workspaces. -/
def filterFolders (folders : List ZenFolder) (workspaceID : String) : List ZenFolder :=
  folders.filter (fun folder => folder.workspaceId != workspaceID)

/-- `getProfileName`: "default" for the default (or absent, or shapeless)
profile, the custom profile's directory basename otherwise. -/
def getProfileName (space : ArcSpace) : String :=
  match space.profile with
  | none => "default"
  | some p =>
    match p.defaultTag with
    | some _ => "default"
    | none =>
      match p.custom with
      | some c =>
        match c.data with
        | some d => d.directoryBasename
        | none => "default"
      | none => "default"

structure ProfileInfo where
  name : String
  displayName : String
  containerID : Int
  icon : String
  color : String
deriving DecidableEq

def containerColors : List String :=
  ["blue", "turquoise", "green", "yellow", "orange", "red", "pink", "purple"]

/-- The icon of a space: the nested custom-icon override when present and
non-empty, the flat `icon` field otherwise.  This snippet appears verbatim in
both `collectUniqueProfiles` and `doImport`. -/
def spaceArcIcon (space : ArcSpace) : String :=
  let icon :=
    match space.customInfo with
    | some ci =>
      match ci.iconType with
      | some it => it.icon
      | none => ""
    | none => ""
  if icon == "" then space.icon else icon

/-- `collectUniqueProfiles`: the contents of the Go map, as an association
list in first-seen order, together with the shared rotating colour counter.
Go iterates this map in unspecified order; every use below goes through an
explicit order (the `mapRange` oracle) or an order-insensitive lookup. -/
def collectUniqueProfiles (spaces : List ArcSpace) : List (String × ProfileInfo) :=
  (spaces.foldl
    (fun acc space =>
      let profileName := getProfileName space
      if (acc.1.find? (fun e => e.1 == profileName)).isSome then acc
      else
        let displayName := if space.title == "" then profileName else space.title
        let color := containerColors.getD (acc.2 % containerColors.length) ""
        (acc.1 ++ [(profileName,
          { name := profileName, displayName := displayName, containerID := 0,
            icon := spaceArcIcon space, color := color })], acc.2 + 1))
    ([], 0)).1

def isArcContainer (item : ArcItem) : Bool :=
  match item.data with
  | none => false
  | some d =>
    match d.itemContainer with
    | none => false
    | some ic => ic.containerType.isSome

/-- `filterArcContainers`: drop Arc-internal container items. -/
def filterArcContainers (items : List ArcItem) : List ArcItem :=
  items.filter (fun item => !isArcContainer item)

/-- The Go item catalog `map[string]*ArcItem`, built left to right with later
entries shadowing earlier ones. -/
def buildItemsMap (items : List ArcItem) : String → Option ArcItem :=
  items.foldl (fun m item => fun k => if k == item.id then some item else m k)
    (fun _ => none)

/-- `getRootItemsForSpace`: resolve the ordered `containerIDs` references;
non-strings and unresolved ids (markers like "pinned") are skipped. -/
def getRootItemsForSpace (space : ArcSpace) (itemsMap : String → Option ArcItem) :
    List ArcItem :=
  space.containerIDs.filterMap
    (fun raw =>
      match raw with
      | ArcRawRef.str itemID => itemsMap itemID
      | ArcRawRef.obj => none)

/-- Lookup in a Go `map[string]string` modelled as a cons-front association
list (missing key gives the zero value `""`). -/
def lookupD (m : List (String × String)) (k : String) : String :=
  match m.find? (fun e => e.1 == k) with
  | some e => e.2
  | none => ""

/-- Lookup in `lastFolderByParent` (missing key is `none`, as the Go code
uses the `exists` flag). -/
def lookupLFP (m : List (String × String)) (k : String) : Option String :=
  (m.find? (fun e => e.1 == k)).map (fun e => e.2)

/-- The resolved display name of a space (`"Workspace <id>"` fallback),
computed identically in `doImport` and `insertItemWithChildren`. -/
def resolveSpaceName (space : ArcSpace) : String :=
  if space.title == "" then "Workspace " ++ space.id else space.title

/-- The folder id `fmt.Sprintf("%d-%d", now, len(zenSession.Folders))`. -/
def mkFolderID (now : Int) (numFolders : Nat) : String :=
  toString now ++ "-" ++ toString numFolders

/-! ## The tree-transformation engine (`insertItemWithChildren`) -/

/-- The read-only context threaded through `insertItemWithChildren`. -/
structure EmitCtx where
  maps : Mappings
  fetchAsDataURL : String → String
  space : ArcSpace
  spaceID : String
  spaceUUIDMap : List (String × String)
  itemsMap : String → Option ArcItem
  arcToZenUUIDMap : List (String × String)
  containersData : ContainersData
  now : Int
  uuidGen : Nat → String

/-- The mutable state: the growing session, the per-parent last-folder map,
and the position of the shared `uuid.New()` stream. -/
structure EngineState where
  session : ZenSession
  lastFolderByParent : List (String × String)
  uuidCtr : Nat
deriving DecidableEq

/-- The `for _, childID := range item.ChildrenIds` loops: look each child up
in the catalog, recurse on hits, skip misses, summing the created count. -/
def insertKids (step : ArcItem → String → EngineState → Nat × EngineState)
    (itemsMap : String → Option ArcItem) :
    List String → String → EngineState → Nat × EngineState
  | [], _, st => (0, st)
  | childID :: rest, parent, st =>
    match itemsMap childID with
    | some child =>
      let r1 := step child parent st
      let r2 := insertKids step itemsMap rest parent r1.2
      (r1.1 + r2.1, r2.2)
    | none => insertKids step itemsMap rest parent st

/-- The folder-emission step of `insertItemWithChildren`
(src/profiles/discovery.go lines 587-676): append the anchor tab, the folder
(whose previous-sibling reference is the last folder recorded for the same
parent, and only for a non-root parent), and the paired group; record the new
folder as last for its parent; consume one uuid.  Returns the new folder id
for the recursion into children. -/
def emitFolder (ctx : EmitCtx) (parentFolderID workspaceUUID title : String)
    (containerID : Int) (st : EngineState) : String × EngineState :=
  let folderID := mkFolderID ctx.now st.session.folders.length
  let anchorTabID := "\x7b" ++ ctx.uuidGen st.uuidCtr ++ "\x7d"
  let anchorTab : ZenTab :=
    { entries := [{ url := "about:blank", title := "",
                    triggeringPrincipalBase64 := "eyIzIjp7fX0=" }],
      lastAccessed := ctx.now, pinned := true, hidden := false,
      zenWorkspace := workspaceUUID, zenSyncId := anchorTabID,
      zenEssential := false, zenDefaultUserContextId := containerID,
      zenIsEmpty := true, zenHasStaticIcon := false, zenIsGlance := false,
      zenStaticLabel := "", zenPinnedInitialState := none,
      userContextId := containerID,
      index := Int.ofNat st.session.tabs.length,
      userTypedValue := "", userTypedClear := 0, image := none,
      groupId := folderID }
  let prevSiblingInfo : Option String :=
    if parentFolderID != "" then lookupLFP st.lastFolderByParent parentFolderID
    else none
  let folder : ZenFolder :=
    { pinned := true, splitViewGroup := false, id := folderID,
      name := title, collapsed := true, saveOnWindowClose := true,
      parentId := parentFolderID, prevSiblingInfo := prevSiblingInfo,
      emptyTabIds := [anchorTabID], userIcon := "",
      workspaceId := workspaceUUID }
  let group : ZenGroup :=
    { id := folderID, name := title, collapsed := true, pinned := true,
      essential := false, splitView := false }
  (folderID,
   { session :=
       { st.session with
         tabs := st.session.tabs ++ [anchorTab],
         folders := st.session.folders ++ [folder],
         groups := st.session.groups ++ [group] },
     lastFolderByParent := (parentFolderID, folderID) :: st.lastFolderByParent,
     uuidCtr := st.uuidCtr + 1 })

/-- The leaf (content tab) emission step of `insertItemWithChildren`
(src/profiles/discovery.go lines 689-759): fetch a favicon (any outcome
accepted) and append one pinned tab with the parent folder as group id. -/
def emitTab (ctx : EmitCtx) (parentFolderID workspaceUUID title url zenUUID : String)
    (containerID : Int) (st : EngineState) : EngineState :=
  let faviconDataURL := if url != "" then ctx.fetchAsDataURL url else ""
  let imageField : Option String :=
    if faviconDataURL != "" then some faviconDataURL else none
  let tab : ZenTab :=
    { entries := [{ url := url, title := title,
                    triggeringPrincipalBase64 := "eyIzIjp7fX0=" }],
      lastAccessed := ctx.now, pinned := true, hidden := false,
      zenWorkspace := workspaceUUID, zenSyncId := zenUUID,
      zenEssential := false, zenDefaultUserContextId := containerID,
      zenIsEmpty := false, zenHasStaticIcon := false, zenIsGlance := false,
      zenStaticLabel := title,
      zenPinnedInitialState := some { url := url, title := title, image := imageField },
      userContextId := containerID,
      index := Int.ofNat st.session.tabs.length,
      userTypedValue := "", userTypedClear := 0, image := imageField,
      groupId := if parentFolderID != "" then parentFolderID else "" }
  { st with session := { st.session with tabs := st.session.tabs ++ [tab] } }

/-- The resolved title of an item: its own title, else the tab payload's
saved title, else "Untitled" (src/profiles/discovery.go lines 574-580). -/
def resolveItemTitle (arcItem : ArcItem) : String :=
  let title :=
    if arcItem.title == "" then
      match arcItem.data with
      | some d =>
        match d.tab with
        | some t => t.savedTitle
        | none => ""
      | none => ""
    else arcItem.title
  if title == "" then "Untitled" else title

/-- The saved URL of an item's tab payload, else "" (lines 582-585). -/
def resolveItemURL (arcItem : ArcItem) : String :=
  match arcItem.data with
  | some d =>
    match d.tab with
    | some t => t.savedURL
    | none => ""
  | none => ""

/-- The container id the emission step uses: the first registry entry whose
*name* equals the space's resolved name and whose id is valid, else 0
(src/profiles/discovery.go lines 561-568).  Note this is a name lookup, not
the allocator's profile mapping. -/
def emitContainerID (cd : ContainersData) (spaceName : String) : Int :=
  match findContainerByName cd.identities spaceName with
  | some container => container.GetUserContextID
  | none => 0

/-- The body of `insertItemWithChildren` for a non-container item, with the
recursion into children abstracted as `step`. -/
def insertNonContainer (ctx : EmitCtx)
    (step : ArcItem → String → EngineState → Nat × EngineState)
    (arcItem : ArcItem) (parentFolderID : String) (st : EngineState) :
    Nat × EngineState :=
  let workspaceUUID := lookupD ctx.spaceUUIDMap ctx.spaceID
  let spaceName := resolveSpaceName ctx.space
  let containerID := emitContainerID ctx.containersData spaceName
  let zenUUID := lookupD ctx.arcToZenUUIDMap arcItem.id
  let title := resolveItemTitle arcItem
  let url := resolveItemURL arcItem
  if !arcItem.childrenIds.isEmpty then
    let r0 := emitFolder ctx parentFolderID workspaceUUID title containerID st
    let r := insertKids step ctx.itemsMap arcItem.childrenIds r0.1 r0.2
    (1 + r.1, r.2)
  else
    (1, emitTab ctx parentFolderID workspaceUUID title url zenUUID containerID st)

/-- `insertItemWithChildren` (src/profiles/discovery.go lines 519-762).
The explicit fuel models the Go call stack: the source recurses without any
cycle guard (spec §9), so a cyclic catalog diverges there; on acyclic input
any fuel at least the tree depth gives the Go behaviour.  Logging is
omitted. -/
def insertItemWithChildren (ctx : EmitCtx) :
    Nat → ArcItem → String → EngineState → Nat × EngineState
  | 0, _, _, st => (0, st)
  | fuel + 1, arcItem, parentFolderID, st =>
    if isArcContainer arcItem then
      insertKids (insertItemWithChildren ctx fuel) ctx.itemsMap
        arcItem.childrenIds parentFolderID st
    else
      insertNonContainer ctx (insertItemWithChildren ctx fuel) arcItem
        parentFolderID st

/-! ## The import pipeline (`doImport`, importer/importer.go) -/

/-- The ambient nondeterminism of a run: the `uuid.New()` stream, the
`time.Now().UnixMilli()` timestamp, and the unspecified order in which Go's
`range` iterates the unique-profiles map (`mapRange` receives the map
contents in first-seen order and yields the iteration order; Go guarantees it
is some permutation). -/
structure ImportOracle where
  uuidGen : Nat → String
  now : Int
  mapRange : List (String × ProfileInfo) → List (String × ProfileInfo)

/-- The container create-or-reuse loop of `doImport` (lines 398-434),
processing the unique profiles in the given iteration order and threading
`nextContainerID` and the registry. -/
def processProfiles (maps : Mappings) :
    List (String × ProfileInfo) → Int → ContainersData →
    List (String × ProfileInfo) × ContainersData
  | [], _, cd => ([], cd)
  | (profileName, profile) :: rest, nextContainerID, cd =>
    match findContainerByName cd.identities profile.displayName with
    | some existingContainer =>
      let profile1 := { profile with containerID := existingContainer.GetUserContextID }
      let r := processProfiles maps rest nextContainerID cd
      ((profileName, profile1) :: r.1, r.2)
    | none =>
      let profile1 := { profile with containerID := nextContainerID }
      let newIdentity : ContainerIdentity :=
        { userContextId := some nextContainerID,
          name := profile.displayName,
          icon := maps.mapArcIconToContainerIcon profile.icon,
          color := maps.mapArcColorToZen profile.color,
          public := true, l10nId := "", accessKey := "" }
      let cd1 := { cd with identities := cd.identities ++ [newIdentity],
                           lastUserContextId := some nextContainerID }
      let r := processProfiles maps rest (nextContainerID + 1) cd1
      ((profileName, profile1) :: r.1, r.2)

/-- The running maximum workspace position (initial 0). -/
def maxSpacePosition (spaces : List ZenSpace) : Int :=
  spaces.foldl (fun acc s => if acc < s.position then s.position else acc) 0

/-- In-place update of the first workspace with the given uuid (the Go loop
updates `Icon` and `ContainerTabID` and breaks). -/
def updateSpaceInPlace (spaces : List ZenSpace) (uuid icon : String) (cid : Int) :
    List ZenSpace :=
  match spaces with
  | [] => []
  | s :: rest =>
    if s.uuid == uuid then { s with icon := icon, containerTabId := cid } :: rest
    else s :: updateSpaceInPlace rest uuid icon cid

/-- The state threaded through the per-space merge-or-create loop. -/
structure SpaceLoopState where
  session : ZenSession
  spaceUUIDMap : List (String × String)
  nextSpacePosition : Int
  uuidCtr : Nat
  spacesCreated : Nat
deriving DecidableEq

/-- One iteration of the space loop of `doImport` (lines 451-528): resolve
name/icon/profile, then merge into an existing workspace (purge its pinned
tabs and folders, update icon and container id in place) or append a new
one. -/
def spaceStep (maps : Mappings) (uuidGen : Nat → String)
    (profiles : List (String × ProfileInfo))
    (st : SpaceLoopState) (space : ArcSpace) : SpaceLoopState :=
  let spaceName := resolveSpaceName space
  let arcIcon := spaceArcIcon space
  let profileName := getProfileName space
  let profile :=
    match (profiles.find? (fun e => e.1 == profileName)).map (fun e => e.2) with
    | some p => p
    | none =>
      { name := profileName, displayName := "", containerID := 0,
        icon := "", color := "" }
  let containerID := profile.containerID
  match findSpaceByName st.session.spaces spaceName with
  | some existingSpace =>
    let spaceUUID := existingSpace.uuid
    { st with
      session :=
        { st.session with
          spaces := updateSpaceInPlace st.session.spaces spaceUUID
            (maps.mapArcIconToSvg arcIcon) containerID,
          tabs := filterTabs st.session.tabs spaceUUID,
          folders := filterFolders st.session.folders spaceUUID },
      spaceUUIDMap := (space.id, spaceUUID) :: st.spaceUUIDMap,
      spacesCreated := st.spacesCreated + 1 }
  | none =>
    let spaceUUID := "\x7b" ++ uuidGen st.uuidCtr ++ "\x7d"
    let newSpace : ZenSpace :=
      { uuid := spaceUUID, name := spaceName,
        icon := maps.mapArcIconToSvg arcIcon,
        containerTabId := containerID, position := st.nextSpacePosition,
        theme := { type := "gradient" }, hasCollapsedPinnedTabs := false }
    { st with
      session := { st.session with spaces := st.session.spaces ++ [newSpace] },
      spaceUUIDMap := (space.id, spaceUUID) :: st.spaceUUIDMap,
      nextSpacePosition := st.nextSpacePosition + 1000,
      uuidCtr := st.uuidCtr + 1,
      spacesCreated := st.spacesCreated + 1 }

/-- Pre-generation of one fresh uuid per item to process
(`arcToZenUUIDMap`), consuming the shared uuid stream. -/
def genUUIDMap (uuidGen : Nat → String) (startCtr : Nat) (items : List ArcItem) :
    List (String × String) × Nat :=
  items.foldl
    (fun acc item =>
      ((item.id, "\x7b" ++ uuidGen acc.2 ++ "\x7d") :: acc.1, acc.2 + 1))
    ([], startCtr)

/-- The item-emission loop for one space: resolve the root references and
insert each root item with empty parent context. -/
def itemsPhaseSpace (maps : Mappings) (fetch : String → String)
    (uuidGen : Nat → String) (now : Int) (itemsMap : String → Option ArcItem)
    (arcToZen : List (String × String)) (cd : ContainersData)
    (spaceUUIDMap : List (String × String)) (fuel : Nat)
    (st : EngineState) (space : ArcSpace) : Nat × EngineState :=
  let ctx : EmitCtx :=
    { maps := maps, fetchAsDataURL := fetch, space := space, spaceID := space.id,
      spaceUUIDMap := spaceUUIDMap, itemsMap := itemsMap,
      arcToZenUUIDMap := arcToZen, containersData := cd, now := now,
      uuidGen := uuidGen }
  (getRootItemsForSpace space itemsMap).foldl
    (fun acc rootItem =>
      let r := insertItemWithChildren ctx fuel rootItem "" acc.2
      (acc.1 + r.1, r.2))
    (0, st)

structure ImportResult where
  success : Bool
  spacesCreated : Nat
  itemsImported : Nat
  containersCount : Nat
deriving DecidableEq

/-- The item-emission loop of `doImport` (lines 579-606): every space's root
items inserted in source order, threading one engine state and summing the
created count. -/
def itemsPhase (maps : Mappings) (fetch : String → String)
    (uuidGen : Nat → String) (now : Int) (itemsMap : String → Option ArcItem)
    (arcToZen : List (String × String)) (cd : ContainersData)
    (spaceUUIDMap : List (String × String)) (fuel : Nat)
    (spaces : List ArcSpace) (start : Nat × EngineState) : Nat × EngineState :=
  spaces.foldl
    (fun acc space =>
      let rr := itemsPhaseSpace maps fetch uuidGen now itemsMap arcToZen cd
        spaceUUIDMap fuel acc.2 space
      (acc.1 + rr.1, rr.2))
    start

/-- `doImport` (importer/importer.go lines 363-614): sidebar check, parse
from the container at index 1, allocate container identities per unique
profile, merge-or-create one workspace per space, then emit folders/tabs.
The favicon pre-cache pass only warms the collaborator's cache and is not
part of the returned state.  File writes (`writeContainers`,
`writeZenSession`) happen outside, only on success. -/
def doImport (maps : Mappings) (fetch : String → String) (oracle : ImportOracle)
    (fuel : Nat) (arcData : ArcData) (zenSession : ZenSession)
    (containersData : ContainersData) :
    Except String (ImportResult × ZenSession × ContainersData) :=
  match arcData.sidebar with
  | none => Except.error "no main container found in Arc data"
  | some sidebar =>
    if sidebar.containers.length < 2 then
      Except.error "no main container found in Arc data"
    else
      let mainContainer := sidebar.containers.getD 1 { spaces := [], items := [] }
      let spaces := parseArcSpaces mainContainer.spaces
      let items := parseArcItems mainContainer.items
      let profiles := collectUniqueProfiles spaces
      let nextContainerID := calculateNextContainerID containersData
      let pr := processProfiles maps (oracle.mapRange profiles) nextContainerID
        containersData
      let assigned := pr.1
      let cd1 := pr.2
      let sls0 : SpaceLoopState :=
        { session := zenSession, spaceUUIDMap := [],
          nextSpacePosition := maxSpacePosition zenSession.spaces + 1000,
          uuidCtr := 0, spacesCreated := 0 }
      let sls := spaces.foldl (spaceStep maps oracle.uuidGen assigned) sls0
      let itemsMap := buildItemsMap items
      let itemsToProcess := filterArcContainers items
      let g := genUUIDMap oracle.uuidGen sls.uuidCtr itemsToProcess
      let est : EngineState :=
        { session := sls.session, lastFolderByParent := [], uuidCtr := g.2 }
      let r := itemsPhase maps fetch oracle.uuidGen oracle.now itemsMap
        g.1 cd1 sls.spaceUUIDMap fuel spaces ((0 : Nat), est)
      Except.ok
        ({ success := true, spacesCreated := sls.spacesCreated,
           itemsImported := r.1, containersCount := cd1.identities.length },
         r.2.session, cd1)

/-- The pure repair step of `writeContainers` (importer/importer.go lines
255-293): drop public identities without a valid id, keep everything else,
in order; no error is raised for dropped entries. -/
def writeContainersClean (identities : List ContainerIdentity) :
    List ContainerIdentity :=
  identities.filter (fun container => !container.public || container.HasValidUserContextID)

/-! ## Predicates used by the theorems -/

/-- The sibling-chain predicate of spec par. 3 invariant 2: the first folder's
reference equals `prev`, and every later folder references the id of the
folder just before it in the list. -/
def folderChainFrom (prev : Option String) : List ZenFolder → Bool
  | [] => true
  | f :: rest => (f.prevSiblingInfo == prev) && folderChainFrom (some f.id) rest

/-- The anchor property of spec par. 3 invariant 1 for one folder: some tab of
the session is empty, carries the folder's id as group id, and its sync id is
tracked in the folder's anchor-tab list; and the paired group shares id, name
and collapsed state. -/
def AnchorProp (sess : ZenSession) (f : ZenFolder) : Prop :=
  (∃ t ∈ sess.tabs, t.zenIsEmpty = true ∧ t.groupId = f.id ∧ t.zenSyncId ∈ f.emptyTabIds) ∧
  (∃ g ∈ sess.groups, g.id = f.id ∧ g.name = f.name ∧ g.collapsed = f.collapsed)

/-- The spaces `doImport` processes: the parsed `spaces` array of the sidebar
container at index 1. -/
def arcSpacesOf (arcData : ArcData) : List ArcSpace :=
  match arcData.sidebar with
  | none => []
  | some sidebar => parseArcSpaces ((sidebar.containers.getD 1 { spaces := [], items := [] }).spaces)

/-! ## Concrete fixtures for counterexamples and witnesses -/

def idMappings : Mappings :=
  { mapArcIconToContainerIcon := fun s => s, mapArcColorToZen := fun s => s,
    mapArcIconToSvg := fun s => s }

def noFavicon : String → String := fun _ => ""

/-- Concrete ambient draws: a deterministic uuid stream, `now = 0`, and the
first-seen map iteration order (one legal order for Go's `range`). -/
def testOracle : ImportOracle :=
  { uuidGen := fun n => "u" ++ toString n, now := 0, mapRange := id }

/-- The same draws with the reversed map iteration order (equally legal for
Go's `range`, which randomizes the order). -/
def testOracleRev : ImportOracle :=
  { uuidGen := fun n => "u" ++ toString n, now := 0, mapRange := List.reverse }

def emptySession : ZenSession :=
  { spaces := [], tabs := [], folders := [], groups := [], lastCollected := 0 }

def emptyCD : ContainersData :=
  { version := 5, lastUserContextId := none, identities := [] }

def mkTabItem (id title url : String) : ArcItem :=
  { id := id, title := title, parentID := "", childrenIds := [],
    data := some { tab := some { savedTitle := title, savedURL := url },
                   itemContainer := none } }

def mkFolderItem (id title : String) (kids : List String) : ArcItem :=
  { id := id, title := title, parentID := "", childrenIds := kids, data := none }

def mkSpace (id title : String) (roots : List String) (prof : Option ArcProfileRef) :
    ArcSpace :=
  { id := id, title := title, icon := "", color := "",
    containerIDs := roots.map ArcRawRef.str, customInfo := none, profile := prof }

def customProfile (d : String) : Option ArcProfileRef :=
  some { defaultTag := none, custom := some { data := some { directoryBasename := d } } }

/-- Two spaces "Foo" and "Bar" sharing the default profile, each with one
root tab (the scenario named by claims C3 and C8). -/
def twoSpacesSharedProfile : ArcData :=
  { sidebar := some { containers := [
      { spaces := [], items := [] },
      { spaces := [some (mkSpace "s1" "Foo" ["t1"] none),
                   some (mkSpace "s2" "Bar" ["t2"] none)],
        items := [some (mkTabItem "t1" "A" "https://a.com"),
                  some (mkTabItem "t2" "B" "https://b.com")] } ] } }

/-- One space with two root-level folders "A" and "B", one tab each. -/
def twoRootFoldersData : ArcData :=
  { sidebar := some { containers := [
      { spaces := [], items := [] },
      { spaces := [some (mkSpace "s1" "S" ["fA", "fB"] none)],
        items := [some (mkFolderItem "fA" "A" ["a1"]),
                  some (mkFolderItem "fB" "B" ["b1"]),
                  some (mkTabItem "a1" "a1" "https://a.com"),
                  some (mkTabItem "b1" "b1" "https://b.com")] } ] } }

/-- Two spaces on two distinct custom profiles (two fresh containers). -/
def twoProfilesData : ArcData :=
  { sidebar := some { containers := [
      { spaces := [], items := [] },
      { spaces := [some (mkSpace "s1" "Foo" [] (customProfile "p1")),
                   some (mkSpace "s2" "Bar" [] (customProfile "p2"))],
        items := [] } ] } }

/-- A registry holding a non-public container named "Foo" with valid id 7. -/
def nonPublicFooCD : ContainersData :=
  { version := 5, lastUserContextId := none,
    identities := [{ userContextId := some 7, name := "Foo", icon := "i",
                     color := "c", public := false, l10nId := "", accessKey := "" }] }

/-- One space "Foo" on the default profile, no items. -/
def fooSpaceData : ArcData :=
  { sidebar := some { containers := [
      { spaces := [], items := [] },
      { spaces := [some (mkSpace "s1" "Foo" [] none)], items := [] } ] } }

/-- A registry with a negative `lastUserContextId` and one invalid-id
container: no *valid* id exists, yet the running maximum the code computes is
`-3`, not the claim's `max(valid ids, last) = -5`. -/
def negativeLastCD : ContainersData :=
  { version := 5, lastUserContextId := some (-5),
    identities := [{ userContextId := some (-3), name := "X", icon := "",
                     color := "", public := true, l10nId := "", accessKey := "" }] }

/-- One space "Z" on the default profile, no items. -/
def zSpaceData : ArcData :=
  { sidebar := some { containers := [
      { spaces := [], items := [] },
      { spaces := [some (mkSpace "s1" "Z" [] none)], items := [] } ] } }

/-- A sidebar with a single container: rejected by the index-1 extraction. -/
def oneContainerData : ArcData :=
  { sidebar := some { containers := [{ spaces := [], items := [] }] } }

/-- A public container identity with a valid id (witness fixture). -/
def validPublicIdentity : ContainerIdentity :=
  { userContextId := some 3, name := "F", icon := "", color := "",
    public := true, l10nId := "", accessKey := "" }

/-- The draws of `testOracle` with a different uuid stream but the same map
iteration order. -/
def testOracleAltUuid : ImportOracle :=
  { uuidGen := fun n => "v" ++ toString n, now := 99, mapRange := id }

/-- The decimal value of a digit string (used to invert `Nat.repr` when
proving folder ids distinct). -/
def digitsVal : List Char → Nat
  | [] => 0
  | c :: cs => (c.toNat - 48) * 10 ^ cs.length + digitsVal cs

/-- The reference the *next* sibling appended after `l` must carry: the seed
`prev` when `l` is empty, the last folder's id otherwise. -/
def chainTail (prev : Option String) (l : List ZenFolder) : Option String :=
  match l.getLast? with
  | none => prev
  | some g => some g.id

/-- The loop invariant of the emission phase, relative to the baseline folder
count `n₀` of the session the engine started from: every folder at position
`i ≥ n₀` carries the id `now-i`; for every enclosing-folder parent context
the emitted siblings form a forward chain whose last element is what
`lastFolderByParent` records; and every emitted root-level folder has an
empty previous-sibling reference. -/
def ChainInv (now : Int) (n₀ : Nat) (st : EngineState) : Prop :=
  n₀ ≤ st.session.folders.length ∧
  (∀ (i : Nat) (f : ZenFolder), n₀ ≤ i → st.session.folders.get? i = some f →
      f.id = mkFolderID now i) ∧
  (∀ P : String, P ≠ "" →
      folderChainFrom none ((st.session.folders.drop n₀).filter
        (fun f => f.parentId == P)) = true ∧
      lookupLFP st.lastFolderByParent P =
        (((st.session.folders.drop n₀).filter
          (fun f => f.parentId == P)).getLast?).map (fun f => f.id)) ∧
  (∀ f ∈ st.session.folders.drop n₀, f.parentId = "" → f.prevSiblingInfo = none)

/-- The anchor invariant relative to the baseline folder count: every folder
emitted so far has its anchor tab and paired group in the session. -/
def AnchorInv (n₀ : Nat) (st : EngineState) : Prop :=
  n₀ ≤ st.session.folders.length ∧
  ∀ f ∈ st.session.folders.drop n₀, AnchorProp st.session f

/-- A one-workspace session ("Foo" with uuid `{w1}`) used as merge-step
witness fixture. -/
def mergeSession : ZenSession :=
  { spaces := [{ uuid := "\x7bw1\x7d", name := "Foo", icon := "",
                 containerTabId := 0, position := 1000,
                 theme := { type := "gradient" },
                 hasCollapsedPinnedTabs := false }],
    tabs := [], folders := [], groups := [], lastCollected := 0 }

def mergeSLS : SpaceLoopState :=
  { session := mergeSession, spaceUUIDMap := [], nextSpacePosition := 2000,
    uuidCtr := 0, spacesCreated := 0 }

/-- A placeholder triple for reading an import result out of `Except`. -/
def dummyResult : ImportResult × ZenSession × ContainersData :=
  ({ success := false, spacesCreated := 0, itemsImported := 0,
     containersCount := 0 }, emptySession, emptyCD)

/-! ### Codec lemmas -/

theorem readUint32LE_putUint32LE (n : Nat) (rest : List Nat) :
    readUint32LE (putUint32LE n ++ rest) = n % 4294967296 := by
  simp only [putUint32LE, List.cons_append, List.nil_append, readUint32LE]
  omega

theorem lz4ReadLenExt_replicate (k m : Nat) (rest : List Nat) (hm : m < 255) :
    lz4ReadLenExt (List.replicate k 255 ++ m :: rest) = some (255 * k + m, rest) := by
  induction k with
  | zero =>
    have : ¬ m = 255 := by omega
    simp [lz4ReadLenExt, this]  | succ k ih =>
    have hstep : List.replicate (k + 1) 255 ++ m :: rest =
        255 :: (List.replicate k 255 ++ m :: rest) := by
      simp [List.replicate]
    rw [hstep]
    simp only [lz4ReadLenExt, if_true, eq_self_iff_true, List.append_eq, ih,
      Option.map_some']
    have h255 : 255 + (255 * k + m) = 255 * (k + 1) + m := by omega
    rw [h255]

theorem lz4ReadLenExt_lenExt (n : Nat) (rest : List Nat) :
    lz4ReadLenExt (lz4LenExt n ++ rest) = some (n, rest) := by
  have h : lz4LenExt n ++ rest = List.replicate (n / 255) 255 ++ n % 255 :: rest := by
    simp [lz4LenExt]
  rw [h, lz4ReadLenExt_replicate _ _ _ (Nat.mod_lt _ (by omega))]
  have hn : 255 * (n / 255) + n % 255 = n := by omega
  rw [hn]

theorem lz4ReadLen_small (nib : Nat) (src : List Nat) (h : nib < 15) :
    lz4ReadLen nib src = some (nib, src) := by
  simp [lz4ReadLen, Nat.ne_of_lt h]

theorem lz4ReadLen_ext (n : Nat) (rest : List Nat) :
    lz4ReadLen 15 (lz4LenExt n ++ rest) = some (15 + n, rest) := by
  simp [lz4ReadLen, lz4ReadLenExt_lenExt]

/-- A single literal-only (last) sequence that exactly fills the destination
decodes to the literals. -/
theorem lz4DecodeLoop_literalOnly (dstSize fuel b : Nat) (rest x dst : List Nat)
    (hread : lz4ReadLen (b / 16) rest = some (x.length, x))
    (hdst : dstSize = dst.length + x.length) :
    lz4DecodeLoop dstSize (fuel + 1) (b :: rest) dst = some (dst ++ x) := by
  rw [lz4DecodeLoop, hread]
  simp only
  rw [if_neg (by omega), if_neg (by omega)]
  simp [List.take_length, List.drop_length]

theorem lz4_block_roundtrip (x : List Nat) :
    lz4UncompressBlock (lz4CompressBlock x) x.length = some x := by
  by_cases hl : x.length < 15
  · have hblock : lz4CompressBlock x = (16 * x.length) :: x := by
      simp [lz4CompressBlock, hl]
    rw [lz4UncompressBlock, hblock]
    simp only [List.length_cons]
    have hread : lz4ReadLen (16 * x.length / 16) x = some (x.length, x) := by
      rw [Nat.mul_div_cancel_left _ (by norm_num)]
      exact lz4ReadLen_small _ _ hl
    have h := lz4DecodeLoop_literalOnly x.length (x.length + 1) (16 * x.length) x x []
      hread (by simp)
    simpa using h
  · have hblock : lz4CompressBlock x = 240 :: (lz4LenExt (x.length - 15) ++ x) := by
      simp [lz4CompressBlock, hl]
    rw [lz4UncompressBlock, hblock]
    simp only [List.length_cons]
    have hread : lz4ReadLen (240 / 16) (lz4LenExt (x.length - 15) ++ x)
        = some (x.length, x) := by
      have h1 : (240 : Nat) / 16 = 15 := by norm_num
      rw [h1, lz4ReadLen_ext]
      have h2 : 15 + (x.length - 15) = x.length := by omega
      rw [h2]
    have h := lz4DecodeLoop_literalOnly x.length
      ((lz4LenExt (x.length - 15) ++ x).length + 1) 240
      (lz4LenExt (x.length - 15) ++ x) x [] hread (by simp)
    simpa using h

theorem headerMagic_length : headerMagic.length = 8 := by decide

theorem Compress_take_header (x : List Nat) :
    (Compress x).take 8 = headerMagic := by
  rw [Compress, List.append_assoc, ← headerMagic_length, List.take_left]

theorem Compress_drop_header (x : List Nat) :
    (Compress x).drop 8 = putUint32LE x.length ++ lz4CompressBlock x := by
  rw [Compress, List.append_assoc, ← headerMagic_length, List.drop_left]

theorem Compress_drop_12 (x : List Nat) :
    (Compress x).drop 12 = lz4CompressBlock x := by
  rw [Compress]
  have h : (headerMagic ++ putUint32LE x.length).length = 12 := by
    simp [headerMagic, putUint32LE]
  rw [← h, List.drop_left]

theorem Compress_length (x : List Nat) :
    (Compress x).length = 12 + (lz4CompressBlock x).length := by
  simp only [Compress, List.length_append, headerMagic, putUint32LE,
    List.length_cons, List.length_nil]

/-- Claim C1, amended: codec round trip for payloads below the 4-byte size
field's 2^32 cap: `Decompress (Compress x) = ok x` whenever
`x.length < 2^32`. -/
theorem C1_roundtrip (x : List Nat) (h : x.length < 4294967296) :
    Decompress (Compress x) = Except.ok x := by
  rw [Decompress]
  rw [if_neg (by rw [Compress_length]; simp [headerSize, sizeBytes])]
  rw [if_neg (by rw [show headerSize = 8 from rfl, Compress_take_header]; simp)]
  simp only [show headerSize = 8 from rfl, show sizeBytes = 4 from rfl,
    show (8 : Nat) + 4 = 12 from rfl, Compress_drop_header, Compress_drop_12,
    readUint32LE_putUint32LE, Nat.mod_eq_of_lt h, lz4_block_roundtrip]

/-- Claim C1 witness: the round trip evaluated on a concrete payload. -/
theorem C1_roundtrip_witness :
    [1, 2, 3].length < 4294967296 ∧ Decompress (Compress [1, 2, 3]) = Except.ok [1, 2, 3] :=
  ⟨by norm_num, C1_roundtrip [1, 2, 3] (by norm_num)⟩

theorem lz4MatchCopy_length (dst : List Nat) (offset : Nat) :
    ∀ k, (lz4MatchCopy dst offset k).length = dst.length + k := by
  intro k
  induction k generalizing dst with
  | zero => simp [lz4MatchCopy]
  | succ k ih => rw [lz4MatchCopy, ih]; simp; omega

/-- Whatever the block decoder returns fits in the destination buffer. -/
theorem lz4DecodeLoop_length_le (dstSize : Nat) :
    ∀ (fuel : Nat) (src dst out : List Nat), dst.length ≤ dstSize →
      lz4DecodeLoop dstSize fuel src dst = some out → out.length ≤ dstSize := by
  intro fuel
  induction fuel with
  | zero =>
    intro src dst out _ hout
    simp [lz4DecodeLoop] at hout
  | succ fuel ih =>
    intro src dst out hdst hout
    match src with
    | [] => simp [lz4DecodeLoop] at hout
    | b :: rest =>
      rw [lz4DecodeLoop] at hout
      match hr : lz4ReadLen (b / 16) rest with
      | none => rw [hr] at hout; exact absurd hout (by simp)
      | some (lLen, rest1) =>
        rw [hr] at hout
        simp only at hout
        split at hout
        · exact absurd hout (by simp)
        · split at hout
          · exact absurd hout (by simp)
          · rename_i h1 h2
            split at hout
            · rename_i hdrop
              have hout' : dst ++ List.take lLen rest1 = out := by
                simpa using hout
              rw [← hout']
              simp only [List.length_append, List.length_take]
              omega
            · rename_i o0 o1 rest3 hdrop
              split at hout
              · exact absurd hout (by simp)
              · split at hout
                · exact absurd hout (by simp)
                · match hm : lz4ReadLen (b % 16) rest3 with
                  | none => rw [hm] at hout; exact absurd hout (by simp)
                  | some (mLen0, rest4) =>
                    rw [hm] at hout
                    simp only at hout
                    split at hout
                    · exact absurd hout (by simp)
                    · rename_i h3
                      refine ih rest4 _ out ?_ hout
                      rw [lz4MatchCopy_length]
                      simp only [List.length_append, List.length_take] at h3 ⊢
                      omega
            · exact absurd hout (by simp)

/-- Anything `Decompress` accepts has at most `2^32 - 1` bytes: the output is
bounded by the 4-byte size field. -/
theorem Decompress_length_le (d out : List Nat) (h : Decompress d = Except.ok out) :
    out.length ≤ readUint32LE (d.drop 8) := by
  rw [Decompress] at h
  split at h
  · exact absurd h (by simp)
  · split at h
    · exact absurd h (by simp)
    · simp only [show headerSize = 8 from rfl] at h
      match hu : lz4UncompressBlock (d.drop (8 + sizeBytes)) (readUint32LE (d.drop 8)) with
      | none => rw [hu] at h; exact absurd h (by simp)
      | some o =>
        rw [hu] at h
        simp only [Except.ok.injEq] at h
        subst h
        exact lz4DecodeLoop_length_le _ _ _ _ _ (by simp) hu

/-- Claim C1 counterexample: a payload of exactly `2^32` bytes does not round
trip — `uint32(len(data))` truncates the stored size to `0`, so `Decompress`
can never return the original `2^32`-byte payload. -/
theorem C1_counterexample :
    Decompress (Compress (List.replicate 4294967296 0)) ≠
      Except.ok (List.replicate 4294967296 0) := by
  intro hc
  have hb := Decompress_length_le _ _ hc
  rw [Compress_drop_header, readUint32LE_putUint32LE, List.length_replicate] at hb
  omega

/-! ### Closed counterexamples and failing-input evaluations -/

/-- Claim C2 counterexample: in a run over one space with two root-level
folders "A" and "B", both emitted root folders carry an empty
previous-sibling reference: the later sibling does not reference the folder
emitted immediately before it under the space root, so the chain predicate
fails for the space-root parent context. -/
theorem C2_counterexample :
    (doImport idMappings noFavicon testOracle 10 twoRootFoldersData emptySession
        emptyCD).toOption.map
      (fun r =>
        (folderChainFrom none (r.2.1.folders.filter (fun f => f.parentId == "")),
         r.2.1.folders.map (fun f => (f.parentId, f.prevSiblingInfo)))) =
    some (false, [("", none), ("", none)]) := by decide

/-- Claim C3, evaluated at the failing input: two spaces "Foo" and "Bar"
share the default profile; the allocator maps that profile to container id 1
(the registry holds exactly ("Foo", 1)) and both workspace records receive
container id 1, but the content tab emitted for space "Bar" carries
`userContextId = 0`: `insertItemWithChildren` resolves the container by the
space's *name* instead of the allocator's profile mapping. -/
theorem C3_failing_input_eval :
    (doImport idMappings noFavicon testOracle 10 twoSpacesSharedProfile emptySession
        emptyCD).toOption.map
      (fun r =>
        (r.2.2.identities.map (fun c => (c.name, c.userContextId)),
         r.2.1.spaces.map (fun s => (s.name, s.containerTabId)),
         r.2.1.tabs.map (fun t => (t.zenStaticLabel, t.userContextId)))) =
    some ([("Foo", some 1)],
          [("Foo", 1), ("Bar", 1)],
          [("A", 1), ("B", 0)]) := by decide

/-- Claim C8 counterexample, two parts.  (1) A *non-public* container named
"Foo" with valid id 7 is reused for the profile displayed as "Foo": the
registry is unchanged (no new identity with id 8 is allocated, contrary to
the claim's "otherwise" branch, which only exempts public matches).  (2) With
`lastUserContextId = -5` and a single invalid-id (-3) container, a fresh
profile "Z" is allocated id -2 = (running maximum -3) + 1, not the claim's
max(all existing valid ids, last-allocated id) + 1 = -4. -/
theorem C8_counterexample :
    ((doImport idMappings noFavicon testOracle 10 fooSpaceData emptySession
        nonPublicFooCD).toOption.map
      (fun r =>
        (r.2.2.identities.map (fun c => (c.name, c.userContextId, c.public)),
         r.2.1.spaces.map (fun s => (s.name, s.containerTabId)))) =
      some ([("Foo", some 7, false)], [("Foo", 7)])) ∧
    ((doImport idMappings noFavicon testOracle 10 zSpaceData emptySession
        negativeLastCD).toOption.map
      (fun r => r.2.2.identities.map (fun c => (c.name, c.userContextId))) =
      some [("X", some (-3)), ("Z", some (-2))]) := by decide

/-- Claim C9 counterexample: two runs on identical source data, identical
(empty) session and identical (empty) registry, differing only in the order
in which Go's `range` happens to iterate the unique-profiles map (identity
order vs reversed order, both legal), produce different registry contents:
the two fresh profiles receive swapped container ids. -/
theorem C9_counterexample :
    ((doImport idMappings noFavicon testOracle 10 twoProfilesData emptySession
        emptyCD).toOption.map
      (fun r => r.2.2.identities.map (fun c => (c.name, c.userContextId))) =
      some [("Foo", some 1), ("Bar", some 2)]) ∧
    ((doImport idMappings noFavicon testOracleRev 10 twoProfilesData emptySession
        emptyCD).toOption.map
      (fun r => r.2.2.identities.map (fun c => (c.name, c.userContextId))) =
      some [("Bar", some 1), ("Foo", some 2)]) := by decide

/-- Claim C10: a missing sidebar, or a sidebar with fewer than two
containers, makes `doImport` return the "no main container" error (before
producing any target state); and when two containers are present the result
depends only on the container at index 1 — the one at index 0 (and anything
beyond index 1) is ignored. -/
theorem C10_mainContainer_guard (maps : Mappings) (fetch : String → String)
    (oracle : ImportOracle) (fuel : Nat) (zenSession : ZenSession)
    (cd : ContainersData) :
    (∀ arcData : ArcData,
        (match arcData.sidebar with
         | none => True
         | some sidebar => sidebar.containers.length < 2) →
        doImport maps fetch oracle fuel arcData zenSession cd =
          Except.error "no main container found in Arc data") ∧
    (∀ (c0 c0' c1 : ArcContainer) (rest rest' : List ArcContainer),
        doImport maps fetch oracle fuel
            { sidebar := some { containers := c0 :: c1 :: rest } } zenSession cd =
          doImport maps fetch oracle fuel
            { sidebar := some { containers := c0' :: c1 :: rest' } } zenSession cd) := by
  constructor
  · intro arcData h
    match harc : arcData.sidebar with
    | none => simp [doImport, harc]
    | some sidebar =>
      rw [harc] at h
      simp only [doImport, harc]
      rw [if_pos h]
  · intro c0 c0' c1 rest rest'
    simp only [doImport]
    rw [if_neg (by simp), if_neg (by simp)]
    have h1 : (c0 :: c1 :: rest).getD 1 { spaces := [], items := [] } = c1 := by
      simp [List.getD]
    have h2 : (c0' :: c1 :: rest').getD 1 { spaces := [], items := [] } = c1 := by
      simp [List.getD]
    rw [h1, h2]

/-- Claim C10 witness: a sidebar with exactly one container is rejected. -/
theorem C10_witness :
    doImport idMappings noFavicon testOracle 10 oneContainerData emptySession
      emptyCD = Except.error "no main container found in Arc data" :=
  (C10_mainContainer_guard idMappings noFavicon testOracle 10 emptySession
    emptyCD).1 oneContainerData (by simp [oneContainerData])

/-! ### Container-registry repair (claim C5) -/

theorem hasValid_iff (c : ContainerIdentity) :
    c.HasValidUserContextID = true ↔
      ∃ id : Int, c.userContextId = some id ∧ 0 < id := by
  match h : c.userContextId with
  | none => simp [ContainerIdentity.HasValidUserContextID, h]
  | some v => simp [ContainerIdentity.HasValidUserContextID, h]

theorem keep_iff (c : ContainerIdentity) :
    (!c.public || c.HasValidUserContextID) = true ↔
      (c.public = false ∨ ∃ id : Int, c.userContextId = some id ∧ 0 < id) := by
  rw [Bool.or_eq_true, Bool.not_eq_true', ← hasValid_iff]

/-- Claim C5: after the registry write's repair step no persisted identity is
public with an absent, zero or negative id; the survivors are exactly the
original entries that are non-public or carry a valid positive id, kept
unchanged and in their original order (a sublist), and the repair is a total
function — dropping never raises an error. -/
theorem C5_registry_repair (identities : List ContainerIdentity) :
    (∀ c ∈ writeContainersClean identities, c.public = true →
        ∃ id : Int, c.userContextId = some id ∧ 0 < id) ∧
    (writeContainersClean identities).Sublist identities ∧
    (∀ c : ContainerIdentity, c ∈ writeContainersClean identities ↔
        (c ∈ identities ∧
          (c.public = false ∨ ∃ id : Int, c.userContextId = some id ∧ 0 < id))) := by
  refine ⟨?_, List.filter_sublist _, ?_⟩
  · intro c hc hp
    rw [writeContainersClean, List.mem_filter, keep_iff] at hc
    rcases hc.2 with h | h
    · rw [hp] at h
      cases h
    · exact h
  · intro c
    rw [writeContainersClean, List.mem_filter, keep_iff]

/-- Claim C5 witness: the repair applied to a one-element registry holding a
valid public identity keeps it, and the theorem yields its positive id. -/
theorem C5_witness :
    ∃ id : Int, validPublicIdentity.userContextId = some id ∧ 0 < id :=
  (C5_registry_repair [validPublicIdentity]).1 validPublicIdentity (by decide) rfl

/-! ### Determinism of the registry (claim C9, amended) -/

/-- Claim C9, amended: the import is a pure function of source data, session,
registry and the ambient draws; the final registry — and with it the
assignment of container ids to profiles — is independent of the uuid stream,
the timestamp, the favicon collaborator and the recursion depth, being fully
determined by the source data, the initial registry, the mappers and the
profile-map iteration order.  The counterexample shows the remaining
dependence on the (unspecified) iteration order is real, and the session
state additionally embeds fresh uuids and the timestamp by design. -/
theorem C9_registry_determined (maps : Mappings) (fetch1 fetch2 : String → String)
    (o1 o2 : ImportOracle) (fuel1 fuel2 : Nat) (arcData : ArcData)
    (zenSession : ZenSession) (cd : ContainersData)
    (h : o1.mapRange = o2.mapRange) :
    (doImport maps fetch1 o1 fuel1 arcData zenSession cd).map (fun r => r.2.2) =
      (doImport maps fetch2 o2 fuel2 arcData zenSession cd).map (fun r => r.2.2) := by
  match harc : arcData.sidebar with
  | none => simp [doImport, harc]
  | some sidebar =>
    by_cases hlen : sidebar.containers.length < 2
    · simp [doImport, harc, hlen]
    · simp only [doImport, harc]
      rw [if_neg hlen, if_neg hlen, h]
      rfl

/-- Claim C9 witness: two runs with different uuid streams and timestamps but
the same iteration order produce the same registry. -/
theorem C9_witness :
    (doImport idMappings noFavicon testOracle 10 twoProfilesData emptySession
        emptyCD).map (fun r => r.2.2) =
      (doImport idMappings noFavicon testOracleAltUuid 7 twoProfilesData
        emptySession emptyCD).map (fun r => r.2.2) :=
  C9_registry_determined idMappings noFavicon noFavicon testOracle
    testOracleAltUuid 10 7 twoProfilesData emptySession emptyCD rfl

/-! ### Injectivity of the generated folder ids -/

theorem digitChar_toNat : ∀ d : Nat, d < 10 → (Nat.digitChar d).toNat = 48 + d := by
  decide

theorem toDigitsCore_val :
    ∀ (fuel n : Nat) (ds : List Char), n < fuel →
      digitsVal (Nat.toDigitsCore 10 fuel n ds) = n * 10 ^ ds.length + digitsVal ds := by
  intro fuel
  induction fuel with
  | zero => intro n ds h; omega
  | succ fuel ih =>
    intro n ds h
    rw [Nat.toDigitsCore]
    by_cases h0 : n / 10 = 0
    · rw [if_pos h0, digitsVal]
      rw [digitChar_toNat (n % 10) (Nat.mod_lt _ (by norm_num))]
      have h1 : 48 + n % 10 - 48 = n % 10 := by omega
      have h2 : n % 10 = n := by omega
      rw [h1, h2]
    · rw [if_neg h0]
      rw [ih (n / 10) (Nat.digitChar (n % 10) :: ds) (by omega)]
      rw [digitsVal, digitChar_toNat (n % 10) (Nat.mod_lt _ (by norm_num))]
      have h1 : 48 + n % 10 - 48 = n % 10 := by omega
      rw [h1]
      simp only [List.length_cons]
      have hsplit :
          n / 10 * 10 ^ (ds.length + 1) + (n % 10 * 10 ^ ds.length + digitsVal ds)
            = (n / 10 * 10 + n % 10) * 10 ^ ds.length + digitsVal ds := by
        ring
      rw [hsplit, show n / 10 * 10 + n % 10 = n from by omega]

theorem digitsVal_toDigits (n : Nat) : digitsVal (Nat.toDigits 10 n) = n := by
  rw [Nat.toDigits, toDigitsCore_val (n + 1) n [] (by omega)]
  simp [digitsVal]

theorem natRepr_injective : ∀ m n : Nat, Nat.repr m = Nat.repr n → m = n := by
  intro m n h
  have hdata : Nat.toDigits 10 m = Nat.toDigits 10 n := by
    have hd := congrArg String.data h
    simpa [Nat.repr, List.asString] using hd
  have hv := congrArg digitsVal hdata
  rwa [digitsVal_toDigits, digitsVal_toDigits] at hv

theorem mkFolderID_injective (now : Int) :
    ∀ k₁ k₂ : Nat, mkFolderID now k₁ = mkFolderID now k₂ → k₁ = k₂ := by
  intro k₁ k₂ h
  rw [mkFolderID, mkFolderID] at h
  have hd := congrArg String.data h
  simp only [String.data_append] at hd
  rw [List.append_assoc, List.append_assoc] at hd
  have h1 := List.append_cancel_left hd
  have h2 := List.append_cancel_left h1
  exact natRepr_injective _ _ (String.ext h2)
/-! ### Sibling-chain machinery (claim C2) -/

theorem chainTail_cons (prev : Option String) (g : ZenFolder) (rest : List ZenFolder) :
    chainTail prev (g :: rest) = chainTail (some g.id) rest := by
  match rest with
  | [] => rfl
  | h :: t =>
    rw [chainTail, chainTail, List.getLast?_cons_cons]
    cases hgl : (h :: t).getLast? with
    | none =>
      rw [List.getLast?_eq_none_iff] at hgl
      cases hgl
    | some g2 => rfl

theorem chainTail_none_eq (l : List ZenFolder) :
    chainTail none l = (l.getLast?).map (fun g => g.id) := by
  cases h : l.getLast? with
  | none => simp [chainTail, h]
  | some g => simp [chainTail, h]

theorem folderChainFrom_append (prev : Option String) (l : List ZenFolder)
    (f : ZenFolder) :
    folderChainFrom prev (l ++ [f]) =
      (folderChainFrom prev l && (f.prevSiblingInfo == chainTail prev l)) := by
  induction l generalizing prev with
  | nil => simp [folderChainFrom, chainTail]
  | cons g rest ih =>
    rw [List.cons_append, folderChainFrom, folderChainFrom, ih (some g.id),
      chainTail_cons, Bool.and_assoc]

theorem lookupLFP_cons (k v P : String) (m : List (String × String)) :
    lookupLFP ((k, v) :: m) P = if k == P then some v else lookupLFP m P := by
  by_cases h : k == P
  · simp [lookupLFP, List.find?_cons, h]
  · simp [lookupLFP, List.find?_cons, h]

theorem filter_singleton_parent_ne (P : String) (f : ZenFolder)
    (h : (f.parentId == P) = false) :
    List.filter (fun g => g.parentId == P) [f] = [] := by
  simp [List.filter, h]

theorem filter_singleton_parent_eq (P : String) (f : ZenFolder)
    (h : (f.parentId == P) = true) :
    List.filter (fun g => g.parentId == P) [f] = [f] := by
  simp [List.filter, h]

/-- Generic preservation of a predicate through a `foldl`. -/
theorem foldl_pres {β : Type} {α : Type} (P : β → Prop) (f : β → α → β)
    (hf : ∀ b a, P b → P (f b a)) :
    ∀ (l : List α) (b : β), P b → P (List.foldl f b l) := by
  intro l
  induction l with
  | nil => intro b hb; exact hb
  | cons a rest ih => intro b hb; exact ih (f b a) (hf b a hb)

/-- Generic preservation of a transitive state relation through
`insertKids`. -/
theorem insertKids_pres (motive : EngineState → EngineState → Prop)
    (htrans : ∀ a b c, motive a b → motive b c → motive a c)
    (hrefl : ∀ a, motive a a)
    (step : ArcItem → String → EngineState → Nat × EngineState)
    (itemsMap : String → Option ArcItem)
    (hstep : ∀ item parent st, motive st (step item parent st).2) :
    ∀ (ids : List String) (parent : String) (st : EngineState),
      motive st (insertKids step itemsMap ids parent st).2 := by
  intro ids
  induction ids with
  | nil => intro parent st; exact hrefl st
  | cons childID rest ih =>
    intro parent st
    rw [insertKids]
    cases h : itemsMap childID with
    | some child =>
      exact htrans _ _ _ (hstep child parent st) (ih parent (step child parent st).2)
    | none => exact ih parent st

theorem emitFolder_chainInv (ctx : EmitCtx) (parent workspaceUUID title : String)
    (containerID : Int) (st : EngineState) (n₀ : Nat)
    (hinv : ChainInv ctx.now n₀ st) :
    ChainInv ctx.now n₀ (emitFolder ctx parent workspaceUUID title containerID st).2 := by
  obtain ⟨hlen, hids, hchain, hroot⟩ := hinv
  have hdrop : ∀ f : ZenFolder,
      (st.session.folders ++ [f]).drop n₀ = st.session.folders.drop n₀ ++ [f] :=
    fun f => List.drop_append_of_le_length hlen
  refine ⟨?_, ?_, ?_, ?_⟩
  · simp only [emitFolder, List.length_append]
    omega
  · intro i f hi hget
    simp only [emitFolder] at hget
    rcases Nat.lt_trichotomy i st.session.folders.length with hlt | heq | hgt
    · rw [List.get?_append hlt] at hget
      exact hids i f hi hget
    · subst heq
      rw [List.get?_append_right (Nat.le_refl _), Nat.sub_self] at hget
      simp only [List.get?] at hget
      cases hget
      rfl
    · rw [List.get?_append_right (Nat.le_of_lt hgt)] at hget
      rw [List.get?_eq_none.mpr (by simp; omega)] at hget
      cases hget
  · intro P hP
    simp only [emitFolder, hdrop, List.filter_append]
    by_cases hPp : parent = P
    · subst hPp
      have hne : ¬ parent = "" := hP
      rw [filter_singleton_parent_eq parent _ (beq_self_eq_true parent)]
      constructor
      · rw [folderChainFrom_append, chainTail_none_eq]
        have hc := (hchain parent hP).1
        rw [hc, Bool.true_and]
        have hprev : (if parent != "" then lookupLFP st.lastFolderByParent parent
            else none) = lookupLFP st.lastFolderByParent parent := by
          rw [if_pos]
          rw [bne_iff_ne]
          exact hne
        rw [hprev, (hchain parent hP).2]
        exact beq_self_eq_true _
      · rw [lookupLFP_cons]
        simp only [beq_self_eq_true, if_true]
        rw [List.getLast?_concat]
        rfl
    · have hbq : (parent == P) = false := by
        simp only [beq_eq_false_iff_ne, ne_eq]
        exact hPp
      rw [filter_singleton_parent_ne P _ hbq, List.append_nil]
      refine ⟨(hchain P hP).1, ?_⟩
      rw [lookupLFP_cons, hbq]
      simp only [Bool.false_eq_true, if_false]
      exact (hchain P hP).2
  · intro f hf hfp
    simp only [emitFolder, hdrop] at hf
    rcases List.mem_append.mp hf with hold | hnew
    · exact hroot f hold hfp
    · have hfeq := List.mem_singleton.mp hnew
      subst hfeq
      simp only at hfp
      rw [if_neg]
      rw [bne_iff_ne]
      simp [hfp]

theorem emitTab_chainInv (ctx : EmitCtx)
    (parent workspaceUUID title url zenUUID : String) (containerID : Int)
    (st : EngineState) (n₀ : Nat) (hinv : ChainInv ctx.now n₀ st) :
    ChainInv ctx.now n₀
      (emitTab ctx parent workspaceUUID title url zenUUID containerID st) := by
  exact hinv

theorem insertItem_chainInv (ctx : EmitCtx) (n₀ : Nat) :
    ∀ (fuel : Nat) (item : ArcItem) (parent : String) (st : EngineState),
      ChainInv ctx.now n₀ st →
      ChainInv ctx.now n₀ ((insertItemWithChildren ctx fuel item parent st).2) := by
  intro fuel
  induction fuel with
  | zero => intro item parent st h; exact h
  | succ fuel ih =>
    intro item parent st hinv
    rw [insertItemWithChildren]
    by_cases hcont : isArcContainer item
    · rw [if_pos hcont]
      exact insertKids_pres
        (fun s s' => ChainInv ctx.now n₀ s → ChainInv ctx.now n₀ s')
        (fun a b c hab hbc ha => hbc (hab ha)) (fun a h => h)
        _ ctx.itemsMap (fun it p s h => ih it p s h)
        item.childrenIds parent st hinv
    · rw [if_neg hcont]
      simp only [insertNonContainer]
      by_cases hkids : (!item.childrenIds.isEmpty) = true
      · rw [if_pos hkids]
        exact insertKids_pres
          (fun s s' => ChainInv ctx.now n₀ s → ChainInv ctx.now n₀ s')
          (fun a b c hab hbc ha => hbc (hab ha)) (fun a h => h)
          _ ctx.itemsMap (fun it p s h => ih it p s h)
          item.childrenIds _ _
          (emitFolder_chainInv ctx parent _ _ _ st n₀ hinv)
      · rw [if_neg hkids]
        exact emitTab_chainInv ctx parent _ _ _ _ _ st n₀ hinv

theorem itemsPhase_chainInv (maps : Mappings) (fetch : String → String)
    (uuidGen : Nat → String) (now : Int) (itemsMap : String → Option ArcItem)
    (arcToZen : List (String × String)) (cd : ContainersData)
    (spm : List (String × String)) (fuel : Nat) (spaces : List ArcSpace)
    (start : Nat × EngineState) (n₀ : Nat) (hinv : ChainInv now n₀ start.2) :
    ChainInv now n₀ (itemsPhase maps fetch uuidGen now itemsMap arcToZen cd spm
      fuel spaces start).2 := by
  rw [itemsPhase]
  refine foldl_pres (fun (acc : Nat × EngineState) => ChainInv now n₀ acc.2) _ ?_
    spaces start hinv
  intro acc space hacc
  simp only
  rw [itemsPhaseSpace]
  refine foldl_pres (fun (acc2 : Nat × EngineState) => ChainInv now n₀ acc2.2) _ ?_
    _ _ hacc
  intro acc2 rootItem hacc2
  simp only
  exact insertItem_chainInv _ n₀ fuel rootItem "" acc2.2 hacc2

theorem ChainInv_initial (now : Int) (st0 : EngineState)
    (h0 : st0.lastFolderByParent = []) :
    ChainInv now st0.session.folders.length st0 := by
  refine ⟨Nat.le_refl _, ?_, ?_, ?_⟩
  · intro i f hi hget
    rw [List.get?_eq_none.mpr hi] at hget
    cases hget
  · intro P hP
    rw [List.drop_length, h0]
    exact ⟨rfl, rfl⟩
  · intro f hf
    rw [List.drop_length] at hf
    cases hf

theorem nodup_new_folder_ids (now : Int) (n₀ : Nat) (F : List ZenFolder)
    (hids : ∀ (i : Nat) (f : ZenFolder), n₀ ≤ i → F.get? i = some f →
      f.id = mkFolderID now i) :
    List.Nodup ((F.drop n₀).map (fun f => f.id)) := by
  have hmap : (F.drop n₀).map (fun f => f.id) =
      (List.range (F.length - n₀)).map (fun k => mkFolderID now (n₀ + k)) := by
    apply List.ext_getElem?
    intro n
    rw [List.getElem?_map, List.getElem?_map, List.getElem?_drop]
    by_cases hn : n₀ + n < F.length
    · cases hf : F[n₀ + n]? with
      | none =>
        rw [List.getElem?_eq_none_iff] at hf
        omega
      | some f =>
        have hid := hids (n₀ + n) f (by omega)
          (by rw [List.get?_eq_getElem?]; exact hf)
        rw [List.getElem?_range (by omega)]
        simp [hid]
    · have h1 : F[n₀ + n]? = none := by
        rw [List.getElem?_eq_none_iff]
        omega
      have h2 : (List.range (F.length - n₀))[n]? = none := by
        rw [List.getElem?_eq_none_iff, List.length_range]
        omega
      rw [h1, h2]
      rfl
  rw [hmap]
  refine List.Nodup.map ?_ (List.nodup_range _)
  intro a b hab
  have := mkFolderID_injective now (n₀ + a) (n₀ + b) hab
  omega

/-- Claim C2, amended: within one run of the emission phase, the sibling
folders emitted under the same *enclosing folder* carry previous-sibling
references forming a singly linked list in source-forward order (the first
emitted sibling's reference is empty and each later sibling references the
folder emitted immediately before it under that parent); the emitted folder
ids are pairwise distinct, so following the references from the last-emitted
sibling visits each of the N siblings exactly once and ends at the empty
reference.  At the *space-root* parent context, however, every emitted
folder's reference is empty: the code computes a reference only when the
parent context is a folder, so root-level siblings are not chained. -/
theorem C2_sibling_chains (maps : Mappings) (fetch : String → String)
    (uuidGen : Nat → String) (now : Int) (itemsMap : String → Option ArcItem)
    (arcToZen : List (String × String)) (cd : ContainersData)
    (spm : List (String × String)) (fuel : Nat) (spaces : List ArcSpace)
    (count0 : Nat) (st0 : EngineState) (h0 : st0.lastFolderByParent = []) :
    (∀ P : String, P ≠ "" →
        folderChainFrom none
          (((itemsPhase maps fetch uuidGen now itemsMap arcToZen cd spm fuel
              spaces (count0, st0)).2.session.folders.drop
            st0.session.folders.length).filter (fun f => f.parentId == P)) = true) ∧
    (∀ f ∈ (itemsPhase maps fetch uuidGen now itemsMap arcToZen cd spm fuel
        spaces (count0, st0)).2.session.folders.drop st0.session.folders.length,
        f.parentId = "" → f.prevSiblingInfo = none) ∧
    List.Nodup (((itemsPhase maps fetch uuidGen now itemsMap arcToZen cd spm fuel
        spaces (count0, st0)).2.session.folders.drop
      st0.session.folders.length).map (fun f => f.id)) := by
  have hinv := itemsPhase_chainInv maps fetch uuidGen now itemsMap arcToZen cd spm
    fuel spaces (count0, st0) st0.session.folders.length
    (ChainInv_initial now st0 h0)
  obtain ⟨hlen, hids, hchain, hroot⟩ := hinv
  exact ⟨fun P hP => (hchain P hP).1, hroot,
    nodup_new_folder_ids now st0.session.folders.length _ hids⟩

/-- Claim C2 witness (for the amended theorem): a run over one space holding
a folder with two child folders: the nested siblings chain forward, the root
folder's reference is empty, and ids are distinct. -/
theorem C2_witness :
    (∀ P : String, P ≠ "" →
        folderChainFrom none
          (((itemsPhase idMappings noFavicon testOracle.uuidGen 0
              (buildItemsMap [mkFolderItem "fP" "P" ["fA", "fB"],
                mkFolderItem "fA" "A" ["a1"], mkFolderItem "fB" "B" ["b1"],
                mkTabItem "a1" "a1" "", mkTabItem "b1" "b1" ""]) [] emptyCD []
              5 [mkSpace "s1" "S" ["fP"] none]
              (0, { session := emptySession, lastFolderByParent := [],
                    uuidCtr := 0 })).2.session.folders.drop
            emptySession.folders.length).filter (fun f => f.parentId == P)) = true) ∧
    (∀ f ∈ (itemsPhase idMappings noFavicon testOracle.uuidGen 0
        (buildItemsMap [mkFolderItem "fP" "P" ["fA", "fB"],
          mkFolderItem "fA" "A" ["a1"], mkFolderItem "fB" "B" ["b1"],
          mkTabItem "a1" "a1" "", mkTabItem "b1" "b1" ""]) [] emptyCD []
        5 [mkSpace "s1" "S" ["fP"] none]
        (0, { session := emptySession, lastFolderByParent := [],
              uuidCtr := 0 })).2.session.folders.drop emptySession.folders.length,
        f.parentId = "" → f.prevSiblingInfo = none) ∧
    List.Nodup (((itemsPhase idMappings noFavicon testOracle.uuidGen 0
        (buildItemsMap [mkFolderItem "fP" "P" ["fA", "fB"],
          mkFolderItem "fA" "A" ["a1"], mkFolderItem "fB" "B" ["b1"],
          mkTabItem "a1" "a1" "", mkTabItem "b1" "b1" ""]) [] emptyCD []
        5 [mkSpace "s1" "S" ["fP"] none]
        (0, { session := emptySession, lastFolderByParent := [],
              uuidCtr := 0 })).2.session.folders.drop
      emptySession.folders.length).map (fun f => f.id)) :=
  C2_sibling_chains idMappings noFavicon testOracle.uuidGen 0
    (buildItemsMap [mkFolderItem "fP" "P" ["fA", "fB"],
      mkFolderItem "fA" "A" ["a1"], mkFolderItem "fB" "B" ["b1"],
      mkTabItem "a1" "a1" "", mkTabItem "b1" "b1" ""]) [] emptyCD []
    5 [mkSpace "s1" "S" ["fP"] none] 0
    { session := emptySession, lastFolderByParent := [], uuidCtr := 0 } rfl

/-! ### Anchor-tab machinery (claim C4) -/

theorem AnchorProp_mono (sess sess2 : ZenSession)
    (ht : ∀ t ∈ sess.tabs, t ∈ sess2.tabs)
    (hg : ∀ g ∈ sess.groups, g ∈ sess2.groups) (f : ZenFolder)
    (h : AnchorProp sess f) : AnchorProp sess2 f := by
  obtain ⟨⟨t, ht1, ht2⟩, ⟨g, hg1, hg2⟩⟩ := h
  exact ⟨⟨t, ht t ht1, ht2⟩, ⟨g, hg g hg1, hg2⟩⟩

theorem emitFolder_anchorInv (ctx : EmitCtx) (parent workspaceUUID title : String)
    (containerID : Int) (st : EngineState) (n₀ : Nat) (hinv : AnchorInv n₀ st) :
    AnchorInv n₀ (emitFolder ctx parent workspaceUUID title containerID st).2 := by
  obtain ⟨hlen, hanch⟩ := hinv
  constructor
  · simp only [emitFolder, List.length_append]
    omega
  · intro f hf
    simp only [emitFolder, List.drop_append_of_le_length hlen] at hf
    rcases List.mem_append.mp hf with hold | hnew
    · refine AnchorProp_mono st.session _ ?_ ?_ f (hanch f hold)
      · intro t htm
        exact List.mem_append_left _ htm
      · intro g hgm
        exact List.mem_append_left _ hgm
    · have hfeq := List.mem_singleton.mp hnew
      subst hfeq
      constructor
      · refine ⟨_, List.mem_append_right _ (List.mem_singleton.mpr rfl), ?_, ?_, ?_⟩
        · rfl
        · rfl
        · exact List.mem_singleton.mpr rfl
      · refine ⟨_, List.mem_append_right _ (List.mem_singleton.mpr rfl), rfl, rfl, rfl⟩

theorem emitTab_anchorInv (ctx : EmitCtx)
    (parent workspaceUUID title url zenUUID : String) (containerID : Int)
    (st : EngineState) (n₀ : Nat) (hinv : AnchorInv n₀ st) :
    AnchorInv n₀
      (emitTab ctx parent workspaceUUID title url zenUUID containerID st) := by
  obtain ⟨hlen, hanch⟩ := hinv
  refine ⟨hlen, ?_⟩
  intro f hf
  refine AnchorProp_mono st.session _ ?_ ?_ f (hanch f hf)
  · intro t htm
    exact List.mem_append_left _ htm
  · intro g hgm
    exact hgm

theorem insertItem_anchorInv (ctx : EmitCtx) (n₀ : Nat) :
    ∀ (fuel : Nat) (item : ArcItem) (parent : String) (st : EngineState),
      AnchorInv n₀ st →
      AnchorInv n₀ ((insertItemWithChildren ctx fuel item parent st).2) := by
  intro fuel
  induction fuel with
  | zero => intro item parent st h; exact h
  | succ fuel ih =>
    intro item parent st hinv
    rw [insertItemWithChildren]
    by_cases hcont : isArcContainer item
    · rw [if_pos hcont]
      exact insertKids_pres (fun s s2 => AnchorInv n₀ s → AnchorInv n₀ s2)
        (fun a b c hab hbc ha => hbc (hab ha)) (fun a h => h)
        _ ctx.itemsMap (fun it p s h => ih it p s h)
        item.childrenIds parent st hinv
    · rw [if_neg hcont]
      simp only [insertNonContainer]
      by_cases hkids : (!item.childrenIds.isEmpty) = true
      · rw [if_pos hkids]
        exact insertKids_pres (fun s s2 => AnchorInv n₀ s → AnchorInv n₀ s2)
          (fun a b c hab hbc ha => hbc (hab ha)) (fun a h => h)
          _ ctx.itemsMap (fun it p s h => ih it p s h)
          item.childrenIds _ _
          (emitFolder_anchorInv ctx parent _ _ _ st n₀ hinv)
      · rw [if_neg hkids]
        exact emitTab_anchorInv ctx parent _ _ _ _ _ st n₀ hinv

/-- Claim C4: every folder emitted by the emission phase (beyond the `n₀`
folders of the starting session) has at least one tab in the final session
with `is-empty = true` whose group id equals the folder's id and whose sync
id is tracked in the folder's anchor-tab id list, and a paired group sharing
the folder's id, name, and collapsed state. -/
theorem C4_anchor_invariant (maps : Mappings) (fetch : String → String)
    (uuidGen : Nat → String) (now : Int) (itemsMap : String → Option ArcItem)
    (arcToZen : List (String × String)) (cd : ContainersData)
    (spm : List (String × String)) (fuel : Nat) (spaces : List ArcSpace)
    (count0 : Nat) (st0 : EngineState) :
    ∀ f ∈ (itemsPhase maps fetch uuidGen now itemsMap arcToZen cd spm fuel
        spaces (count0, st0)).2.session.folders.drop st0.session.folders.length,
      AnchorProp (itemsPhase maps fetch uuidGen now itemsMap arcToZen cd spm fuel
        spaces (count0, st0)).2.session f := by
  have hinit : AnchorInv st0.session.folders.length st0 := by
    refine ⟨Nat.le_refl _, ?_⟩
    intro f hf
    rw [List.drop_length] at hf
    cases hf
  have hinv : AnchorInv st0.session.folders.length
      (itemsPhase maps fetch uuidGen now itemsMap arcToZen cd spm fuel spaces
        (count0, st0)).2 := by
    rw [itemsPhase]
    refine foldl_pres
      (fun (acc : Nat × EngineState) => AnchorInv st0.session.folders.length acc.2)
      _ ?_ spaces (count0, st0) hinit
    intro acc space hacc
    simp only
    rw [itemsPhaseSpace]
    refine foldl_pres
      (fun (acc2 : Nat × EngineState) => AnchorInv st0.session.folders.length acc2.2)
      _ ?_ _ _ hacc
    intro acc2 rootItem hacc2
    simp only
    exact insertItem_anchorInv _ _ fuel rootItem "" acc2.2 hacc2
  exact hinv.2

/-- Claim C4 witness: the anchor property for the folder emitted in a
concrete run (one space with one folder containing one tab). -/
theorem C4_witness :
    AnchorProp (itemsPhase idMappings noFavicon testOracle.uuidGen 0
        (buildItemsMap [mkFolderItem "fA" "A" ["a1"], mkTabItem "a1" "a1" ""])
        [] emptyCD [] 5 [mkSpace "s1" "S" ["fA"] none]
        (0, { session := emptySession, lastFolderByParent := [],
              uuidCtr := 0 })).2.session
      ((itemsPhase idMappings noFavicon testOracle.uuidGen 0
        (buildItemsMap [mkFolderItem "fA" "A" ["a1"], mkTabItem "a1" "a1" ""])
        [] emptyCD [] 5 [mkSpace "s1" "S" ["fA"] none]
        (0, { session := emptySession, lastFolderByParent := [],
              uuidCtr := 0 })).2.session.folders.getD 0
        { pinned := false, splitViewGroup := false, id := "", name := "",
          collapsed := false, saveOnWindowClose := false, parentId := "",
          prevSiblingInfo := none, emptyTabIds := [], userIcon := "",
          workspaceId := "" }) :=
  C4_anchor_invariant idMappings noFavicon testOracle.uuidGen 0
    (buildItemsMap [mkFolderItem "fA" "A" ["a1"], mkTabItem "a1" "a1" ""])
    [] emptyCD [] 5 [mkSpace "s1" "S" ["fA"] none] 0
    { session := emptySession, lastFolderByParent := [], uuidCtr := 0 }
    _ (by decide)

/-! ### Merge-step frame conditions (claim C6) -/

theorem updateSpaceInPlace_length (l : List ZenSpace) (u i : String) (c : Int) :
    (updateSpaceInPlace l u i c).length = l.length := by
  induction l with
  | nil => rfl
  | cons s rest ih =>
    rw [updateSpaceInPlace]
    by_cases h : s.uuid == u
    · rw [if_pos h]
      simp
    · rw [if_neg h]
      simp [ih]

theorem updateSpaceInPlace_get?_ne (l : List ZenSpace) (u i : String) (c : Int) :
    ∀ n : Nat, (∀ w, l.get? n = some w → w.uuid ≠ u) →
      (updateSpaceInPlace l u i c).get? n = l.get? n := by
  induction l with
  | nil => intro n _; rfl
  | cons s rest ih =>
    intro n h
    rw [updateSpaceInPlace]
    by_cases hs : s.uuid == u
    · rw [if_pos hs]
      cases n with
      | zero => exact absurd (eq_of_beq hs) (h s rfl)
      | succ n => rfl
    · rw [if_neg hs]
      cases n with
      | zero => rfl
      | succ n => exact ih n (fun w hw => h w hw)

theorem updateSpaceInPlace_mem (l : List ZenSpace) (u i : String) (c : Int) :
    ∀ w ∈ updateSpaceInPlace l u i c,
      w ∈ l ∨ ∃ w2, w2 ∈ l ∧ w2.uuid = u ∧
        w = { w2 with icon := i, containerTabId := c } := by
  induction l with
  | nil => intro w hw; cases hw
  | cons s rest ih =>
    intro w hw
    rw [updateSpaceInPlace] at hw
    by_cases hs : s.uuid == u
    · rw [if_pos hs] at hw
      rcases List.mem_cons.mp hw with heq | hrest
      · right
        exact ⟨s, List.mem_cons_self _ _, eq_of_beq hs, heq⟩
      · left
        exact List.mem_cons_of_mem _ hrest
    · rw [if_neg hs] at hw
      rcases List.mem_cons.mp hw with heq | hrest
      · left
        subst heq
        exact List.mem_cons_self _ _
      · rcases ih w hrest with h1 | ⟨w2, hw2, hu, heqw⟩
        · left
          exact List.mem_cons_of_mem _ h1
        · right
          exact ⟨w2, List.mem_cons_of_mem _ hw2, hu, heqw⟩

theorem updateSpaceInPlace_map_name (l : List ZenSpace) (u i : String) (c : Int) :
    (updateSpaceInPlace l u i c).map (fun w => w.name) =
      l.map (fun w => w.name) := by
  induction l with
  | nil => rfl
  | cons s rest ih =>
    rw [updateSpaceInPlace]
    by_cases h : s.uuid == u
    · rw [if_pos h]
      simp
    · rw [if_neg h]
      simp [ih]

/-- Claim C6: when a processed space's resolved name exactly matches an
existing workspace (the first with that name), the merge step reuses its
uuid for the space mapping, keeps a tab iff it is not a pinned tab of that
workspace, keeps a folder iff it is not owned by that workspace, appends no
workspace (length preserved), leaves every workspace whose uuid differs
untouched (positionally), rewrites at most icon and container id of a
matched-uuid workspace (uuid, name, position, theme and collapsed-pins flag
unchanged), and does not touch groups. -/
theorem C6_merge_frame (maps : Mappings) (uuidGen : Nat → String)
    (profiles : List (String × ProfileInfo)) (st : SpaceLoopState)
    (space : ArcSpace) (es : ZenSpace)
    (h : findSpaceByName st.session.spaces (resolveSpaceName space) = some es) :
    (∀ t : ZenTab, t ∈ (spaceStep maps uuidGen profiles st space).session.tabs ↔
        (t ∈ st.session.tabs ∧ (t.zenWorkspace ≠ es.uuid ∨ t.pinned = false))) ∧
    (∀ f : ZenFolder,
        f ∈ (spaceStep maps uuidGen profiles st space).session.folders ↔
          (f ∈ st.session.folders ∧ f.workspaceId ≠ es.uuid)) ∧
    (spaceStep maps uuidGen profiles st space).session.spaces.length =
      st.session.spaces.length ∧
    (∀ n : Nat, (∀ w, st.session.spaces.get? n = some w → w.uuid ≠ es.uuid) →
        (spaceStep maps uuidGen profiles st space).session.spaces.get? n =
          st.session.spaces.get? n) ∧
    (∀ w ∈ (spaceStep maps uuidGen profiles st space).session.spaces,
        w ∈ st.session.spaces ∨
          ∃ w2, w2 ∈ st.session.spaces ∧ w2.uuid = es.uuid ∧ w.uuid = w2.uuid ∧
            w.name = w2.name ∧ w.position = w2.position ∧ w.theme = w2.theme ∧
            w.hasCollapsedPinnedTabs = w2.hasCollapsedPinnedTabs) ∧
    (spaceStep maps uuidGen profiles st space).session.groups =
      st.session.groups ∧
    (spaceStep maps uuidGen profiles st space).spaceUUIDMap =
      (space.id, es.uuid) :: st.spaceUUIDMap := by
  simp only [spaceStep, h]
  refine ⟨?_, ?_, ?_, ?_, ?_, ?_, ?_⟩
  · intro t
    simp only [filterTabs, List.mem_filter, Bool.or_eq_true, bne_iff_ne, ne_eq,
      Bool.not_eq_true']
  · intro f
    simp only [filterFolders, List.mem_filter, bne_iff_ne, ne_eq]
  · exact updateSpaceInPlace_length _ _ _ _
  · intro n hn
    exact updateSpaceInPlace_get?_ne _ _ _ _ n hn
  · intro w hw
    rcases updateSpaceInPlace_mem _ _ _ _ w hw with h1 | ⟨w2, hw2, hu, heqw⟩
    · left
      exact h1
    · right
      subst heqw
      exact ⟨w2, hw2, hu, rfl, rfl, rfl, rfl, rfl⟩
  · trivial
  · trivial

/-- Claim C6 witness: merging a space "Foo" into a session holding workspace
"Foo" leaves the (empty) group list unchanged, with the uuid reused in the
space map. -/
theorem C6_witness :
    (spaceStep idMappings testOracle.uuidGen [] mergeSLS
        (mkSpace "s1" "Foo" [] none)).session.groups = mergeSession.groups ∧
    (spaceStep idMappings testOracle.uuidGen [] mergeSLS
        (mkSpace "s1" "Foo" [] none)).spaceUUIDMap =
      [("s1", "\x7bw1\x7d")] :=
  ⟨(C6_merge_frame idMappings testOracle.uuidGen [] mergeSLS
      (mkSpace "s1" "Foo" [] none)
      { uuid := "\x7bw1\x7d", name := "Foo", icon := "", containerTabId := 0,
        position := 1000, theme := { type := "gradient" },
        hasCollapsedPinnedTabs := false } (by decide)).2.2.2.2.2.1,
   (C6_merge_frame idMappings testOracle.uuidGen [] mergeSLS
      (mkSpace "s1" "Foo" [] none)
      { uuid := "\x7bw1\x7d", name := "Foo", icon := "", containerTabId := 0,
        position := 1000, theme := { type := "gradient" },
        hasCollapsedPinnedTabs := false } (by decide)).2.2.2.2.2.2⟩

/-! ### Merge idempotence (claim C7) -/

theorem foldl_establish {β α : Type} (Q : α → β → Prop) (f : β → α → β)
    (hest : ∀ b a, Q a (f b a))
    (hpres : ∀ b a a2, Q a2 b → Q a2 (f b a)) :
    ∀ (l : List α) (b : β) (a : α), a ∈ l → Q a (List.foldl f b l) := by
  intro l
  induction l with
  | nil => intro b a ha; cases ha
  | cons x rest ih =>
    intro b a ha
    rw [List.foldl_cons]
    rcases List.mem_cons.mp ha with heq | hrest
    · subst heq
      exact foldl_pres (Q a) f (fun b2 a2 h => hpres b2 a2 a h) rest (f b a)
        (hest b a)
    · exact ih (f b x) a hrest

theorem insertItem_spaces (ctx : EmitCtx) :
    ∀ (fuel : Nat) (item : ArcItem) (parent : String) (st : EngineState),
      ((insertItemWithChildren ctx fuel item parent st).2).session.spaces =
        st.session.spaces := by
  intro fuel
  induction fuel with
  | zero => intro item parent st; rfl
  | succ fuel ih =>
    intro item parent st
    rw [insertItemWithChildren]
    by_cases hcont : isArcContainer item
    · rw [if_pos hcont]
      exact insertKids_pres
        (fun (a b : EngineState) => b.session.spaces = a.session.spaces)
        (fun a b c hab hbc => hbc.trans hab) (fun a => rfl)
        _ ctx.itemsMap (fun it p s => ih it p s) item.childrenIds parent st
    · rw [if_neg hcont]
      simp only [insertNonContainer]
      by_cases hkids : (!item.childrenIds.isEmpty) = true
      · rw [if_pos hkids]
        exact Eq.trans
          (insertKids_pres
            (fun (a b : EngineState) => b.session.spaces = a.session.spaces)
            (fun a b c hab hbc => hbc.trans hab) (fun a => rfl)
            _ ctx.itemsMap (fun it p s => ih it p s) item.childrenIds _ _)
          rfl
      · rw [if_neg hkids]
        rfl

theorem itemsPhaseSpace_spaces (maps : Mappings) (fetch : String → String)
    (uuidGen : Nat → String) (now : Int) (itemsMap : String → Option ArcItem)
    (arcToZen : List (String × String)) (cd : ContainersData)
    (spm : List (String × String)) (fuel : Nat) (st : EngineState)
    (space : ArcSpace) :
    (itemsPhaseSpace maps fetch uuidGen now itemsMap arcToZen cd spm fuel st
        space).2.session.spaces = st.session.spaces := by
  rw [itemsPhaseSpace]
  refine foldl_pres
    (fun (acc : Nat × EngineState) => acc.2.session.spaces = st.session.spaces)
    _ ?_ _ (0, st) rfl
  intro acc rootItem hacc
  simp only
  exact (insertItem_spaces _ fuel rootItem "" acc.2).trans hacc

theorem itemsPhase_spaces (maps : Mappings) (fetch : String → String)
    (uuidGen : Nat → String) (now : Int) (itemsMap : String → Option ArcItem)
    (arcToZen : List (String × String)) (cd : ContainersData)
    (spm : List (String × String)) (fuel : Nat) (spaces : List ArcSpace)
    (start : Nat × EngineState) :
    (itemsPhase maps fetch uuidGen now itemsMap arcToZen cd spm fuel spaces
        start).2.session.spaces = start.2.session.spaces := by
  rw [itemsPhase]
  refine foldl_pres
    (fun (acc : Nat × EngineState) =>
      acc.2.session.spaces = start.2.session.spaces)
    _ ?_ spaces start rfl
  intro acc space hacc
  simp only
  exact (itemsPhaseSpace_spaces maps fetch uuidGen now itemsMap arcToZen cd spm
    fuel acc.2 space).trans hacc

theorem findSpaceByName_none (spaces : List ZenSpace) (name : String) :
    findSpaceByName spaces name = none ↔
      name ∉ spaces.map (fun w => w.name) := by
  rw [findSpaceByName, List.find?_eq_none]
  constructor
  · intro h hmem
    rcases List.mem_map.mp hmem with ⟨w, hw, hwn⟩
    exact h w hw (beq_iff_eq.mpr hwn)
  · intro h s hs hbeq
    exact h (List.mem_map.mpr ⟨s, hs, eq_of_beq hbeq⟩)

theorem findSpaceByName_some (spaces : List ZenSpace) (name : String)
    (es : ZenSpace) (h : findSpaceByName spaces name = some es) :
    es ∈ spaces ∧ es.name = name := by
  refine ⟨List.mem_of_find?_eq_some h, ?_⟩
  have hp := List.find?_some h
  exact eq_of_beq hp

theorem findSpaceByName_isSome_of_mem (spaces : List ZenSpace) (name : String)
    (h : name ∈ spaces.map (fun w => w.name)) :
    ∃ es, findSpaceByName spaces name = some es := by
  cases hf : findSpaceByName spaces name with
  | some es => exact ⟨es, rfl⟩
  | none => exact absurd h ((findSpaceByName_none _ _).mp hf)

theorem spaceStep_names_merge (maps : Mappings) (uuidGen : Nat → String)
    (profiles : List (String × ProfileInfo)) (st : SpaceLoopState)
    (space : ArcSpace) (es : ZenSpace)
    (h : findSpaceByName st.session.spaces (resolveSpaceName space) = some es) :
    (spaceStep maps uuidGen profiles st space).session.spaces.map
        (fun w => w.name) =
      st.session.spaces.map (fun w => w.name) := by
  simp only [spaceStep, h]
  exact updateSpaceInPlace_map_name _ _ _ _

theorem spaceStep_names_create (maps : Mappings) (uuidGen : Nat → String)
    (profiles : List (String × ProfileInfo)) (st : SpaceLoopState)
    (space : ArcSpace)
    (h : findSpaceByName st.session.spaces (resolveSpaceName space) = none) :
    (spaceStep maps uuidGen profiles st space).session.spaces.map
        (fun w => w.name) =
      st.session.spaces.map (fun w => w.name) ++ [resolveSpaceName space] := by
  simp only [spaceStep, h, List.map_append]
  rfl

theorem spaceStep_nodup (maps : Mappings) (uuidGen : Nat → String)
    (profiles : List (String × ProfileInfo)) (st : SpaceLoopState)
    (space : ArcSpace)
    (h : (st.session.spaces.map (fun w => w.name)).Nodup) :
    ((spaceStep maps uuidGen profiles st space).session.spaces.map
      (fun w => w.name)).Nodup := by
  cases hf : findSpaceByName st.session.spaces (resolveSpaceName space) with
  | some es =>
    rw [spaceStep_names_merge maps uuidGen profiles st space es hf]
    exact h
  | none =>
    rw [spaceStep_names_create maps uuidGen profiles st space hf]
    have hnm : resolveSpaceName space ∉ st.session.spaces.map (fun w => w.name) :=
      (findSpaceByName_none _ _).mp hf
    rw [← List.concat_eq_append]
    exact List.Nodup.concat hnm h

theorem spaceStep_mem (maps : Mappings) (uuidGen : Nat → String)
    (profiles : List (String × ProfileInfo)) (st : SpaceLoopState)
    (space : ArcSpace) (n : String)
    (h : n ∈ st.session.spaces.map (fun w => w.name)) :
    n ∈ (spaceStep maps uuidGen profiles st space).session.spaces.map
      (fun w => w.name) := by
  cases hf : findSpaceByName st.session.spaces (resolveSpaceName space) with
  | some es =>
    rw [spaceStep_names_merge maps uuidGen profiles st space es hf]
    exact h
  | none =>
    rw [spaceStep_names_create maps uuidGen profiles st space hf]
    exact List.mem_append_left _ h

theorem spaceStep_resolved_mem (maps : Mappings) (uuidGen : Nat → String)
    (profiles : List (String × ProfileInfo)) (st : SpaceLoopState)
    (space : ArcSpace) :
    resolveSpaceName space ∈
      (spaceStep maps uuidGen profiles st space).session.spaces.map
        (fun w => w.name) := by
  cases hf : findSpaceByName st.session.spaces (resolveSpaceName space) with
  | some es =>
    rw [spaceStep_names_merge maps uuidGen profiles st space es hf]
    obtain ⟨hmem, hname⟩ := findSpaceByName_some _ _ _ hf
    exact List.mem_map.mpr ⟨es, hmem, hname⟩
  | none =>
    rw [spaceStep_names_create maps uuidGen profiles st space hf]
    exact List.mem_append_right _ (List.mem_singleton.mpr rfl)

theorem spaceStep_names_eq_of_mem (maps : Mappings) (uuidGen : Nat → String)
    (profiles : List (String × ProfileInfo)) (st : SpaceLoopState)
    (space : ArcSpace)
    (h : resolveSpaceName space ∈ st.session.spaces.map (fun w => w.name)) :
    (spaceStep maps uuidGen profiles st space).session.spaces.map
        (fun w => w.name) =
      st.session.spaces.map (fun w => w.name) := by
  obtain ⟨es, hf⟩ := findSpaceByName_isSome_of_mem _ _ h
  exact spaceStep_names_merge maps uuidGen profiles st space es hf

theorem spaceLoop_names_eq (maps : Mappings) (uuidGen : Nat → String)
    (profiles : List (String × ProfileInfo)) :
    ∀ (l : List ArcSpace) (st0 : SpaceLoopState),
      (∀ sp ∈ l,
        resolveSpaceName sp ∈ st0.session.spaces.map (fun w => w.name)) →
      (l.foldl (spaceStep maps uuidGen profiles) st0).session.spaces.map
          (fun w => w.name) =
        st0.session.spaces.map (fun w => w.name) := by
  intro l
  induction l with
  | nil => intro st0 _; rfl
  | cons sp rest ih =>
    intro st0 h
    rw [List.foldl_cons]
    have h1 := spaceStep_names_eq_of_mem maps uuidGen profiles st0 sp
      (h sp (List.mem_cons_self _ _))
    have h2 : ∀ sp2 ∈ rest,
        resolveSpaceName sp2 ∈
          (spaceStep maps uuidGen profiles st0 sp).session.spaces.map
            (fun w => w.name) := by
      intro sp2 hsp2
      rw [h1]
      exact h sp2 (List.mem_cons_of_mem _ hsp2)
    rw [ih (spaceStep maps uuidGen profiles st0 sp) h2, h1]

theorem doImport_session_names (maps : Mappings) (fetch : String → String)
    (oracle : ImportOracle) (fuel : Nat) (arcData : ArcData)
    (zenSession : ZenSession) (cd : ContainersData)
    (r : ImportResult × ZenSession × ContainersData)
    (h : doImport maps fetch oracle fuel arcData zenSession cd = Except.ok r) :
    ((zenSession.spaces.map (fun w => w.name)).Nodup →
      (r.2.1.spaces.map (fun w => w.name)).Nodup) ∧
    (∀ sp ∈ arcSpacesOf arcData,
      resolveSpaceName sp ∈ r.2.1.spaces.map (fun w => w.name)) ∧
    ((∀ sp ∈ arcSpacesOf arcData,
        resolveSpaceName sp ∈ zenSession.spaces.map (fun w => w.name)) →
      r.2.1.spaces.map (fun w => w.name) =
        zenSession.spaces.map (fun w => w.name)) := by
  match harc : arcData.sidebar with
  | none => simp [doImport, harc] at h
  | some sidebar =>
    by_cases hlen : sidebar.containers.length < 2
    · simp only [doImport, harc] at h
      rw [if_pos hlen] at h
      cases h
    · simp only [doImport, harc] at h
      rw [if_neg hlen] at h
      rw [Except.ok.injEq] at h
      subst h
      have harcsp : arcSpacesOf arcData =
          parseArcSpaces
            ((sidebar.containers.getD 1 { spaces := [], items := [] }).spaces) := by
        simp [arcSpacesOf, harc]
      rw [harcsp]
      simp only [itemsPhase_spaces]
      constructor
      · intro hnd
        refine foldl_pres
          (fun (s : SpaceLoopState) =>
            (s.session.spaces.map (fun w => w.name)).Nodup)
          _ (fun b a hb => spaceStep_nodup _ _ _ b a hb) _ _ ?_
        exact hnd
      constructor
      · intro sp hsp
        refine foldl_establish
          (fun (a : ArcSpace) (b : SpaceLoopState) =>
            resolveSpaceName a ∈ b.session.spaces.map (fun w => w.name))
          _ (fun b a => spaceStep_resolved_mem _ _ _ b a)
          (fun b a a2 hq => spaceStep_mem _ _ _ b a _ hq) _ _ sp ?_
        exact hsp
      · intro hall
        exact spaceLoop_names_eq _ _ _ _ _ hall

/-- Claim C7: running the import twice in a row on the same source data —
the second run against the first run's resulting session and registry —
yields a session whose workspace-name list is unchanged by the second run
(the second run merges in place instead of appending), and, provided the
starting session's workspace names were pairwise distinct, exactly one
workspace per distinct resolved space name: each processed space's resolved
name occurs exactly once among the final workspace names. -/
theorem C7_merge_idempotence (maps : Mappings) (fetch1 fetch2 : String → String)
    (o1 o2 : ImportOracle) (fuel1 fuel2 : Nat) (arcData : ArcData)
    (zenSession : ZenSession) (cd : ContainersData)
    (r1 r2 : ImportResult × ZenSession × ContainersData)
    (hnd : (zenSession.spaces.map (fun w => w.name)).Nodup)
    (h1 : doImport maps fetch1 o1 fuel1 arcData zenSession cd = Except.ok r1)
    (h2 : doImport maps fetch2 o2 fuel2 arcData r1.2.1 r1.2.2 = Except.ok r2) :
    r2.2.1.spaces.map (fun w => w.name) =
      r1.2.1.spaces.map (fun w => w.name) ∧
    (r1.2.1.spaces.map (fun w => w.name)).Nodup ∧
    ∀ sp ∈ arcSpacesOf arcData,
      (r2.2.1.spaces.map (fun w => w.name)).count (resolveSpaceName sp) = 1 := by
  obtain ⟨hnd1, hmem1, _⟩ :=
    doImport_session_names maps fetch1 o1 fuel1 arcData zenSession cd r1 h1
  obtain ⟨_, _, heq2⟩ :=
    doImport_session_names maps fetch2 o2 fuel2 arcData r1.2.1 r1.2.2 r2 h2
  have hndr1 := hnd1 hnd
  have heq := heq2 hmem1
  refine ⟨heq, hndr1, ?_⟩
  intro sp hsp
  rw [heq]
  exact List.count_eq_one_of_mem hndr1 (hmem1 sp hsp)

/-- Claim C7 witness: two consecutive runs over a one-space source, the
second against the first run's output, leave the resolved name "Foo"
occurring exactly once. -/
theorem C7_witness :
    (((doImport idMappings noFavicon testOracle 5 fooSpaceData
        ((doImport idMappings noFavicon testOracle 5 fooSpaceData emptySession
            emptyCD).toOption.getD dummyResult).2.1
        ((doImport idMappings noFavicon testOracle 5 fooSpaceData emptySession
            emptyCD).toOption.getD dummyResult).2.2).toOption.getD
        dummyResult).2.1.spaces.map (fun w => w.name)).count
      (resolveSpaceName (mkSpace "s1" "Foo" [] none)) = 1 :=
  (C7_merge_idempotence idMappings noFavicon noFavicon testOracle testOracle 5 5
    fooSpaceData emptySession emptyCD
    ((doImport idMappings noFavicon testOracle 5 fooSpaceData emptySession
        emptyCD).toOption.getD dummyResult)
    ((doImport idMappings noFavicon testOracle 5 fooSpaceData
        ((doImport idMappings noFavicon testOracle 5 fooSpaceData emptySession
            emptyCD).toOption.getD dummyResult).2.1
        ((doImport idMappings noFavicon testOracle 5 fooSpaceData emptySession
            emptyCD).toOption.getD dummyResult).2.2).toOption.getD dummyResult)
    (by decide) (by rfl) (by rfl)).2.2
    (mkSpace "s1" "Foo" [] none) (by decide)

/-! ### The identity allocator (claim C8, amended) -/

theorem findContainerByName_props (containers : List ContainerIdentity)
    (name : String) (c : ContainerIdentity)
    (h : findContainerByName containers name = some c) :
    c ∈ containers ∧ c.name = name ∧
      ∃ v : Int, c.userContextId = some v ∧ 0 < v ∧ c.GetUserContextID = v := by
  have hp := List.find?_some h
  rw [Bool.and_eq_true] at hp
  refine ⟨List.mem_of_find?_eq_some h, eq_of_beq hp.1, ?_⟩
  obtain ⟨v, hv, hpos⟩ := (hasValid_iff c).mp hp.2
  refine ⟨v, hv, hpos, ?_⟩
  simp [ContainerIdentity.GetUserContextID, hv]

theorem processProfiles_spec (maps : Mappings) :
    ∀ (entries : List (String × ProfileInfo)) (next : Int) (cd : ContainersData),
      ((processProfiles maps entries next cd).1.map Prod.fst =
        entries.map Prod.fst) ∧
      (∃ created : List ContainerIdentity,
        (processProfiles maps entries next cd).2.identities =
          cd.identities ++ created ∧
        created.map (fun c => c.userContextId) =
          (List.range created.length).map (fun (k : Nat) => some (next + (k : Int))) ∧
        (∀ c ∈ created, c.public = true)) ∧
      (∀ e ∈ (processProfiles maps entries next cd).1,
        ∃ c ∈ (processProfiles maps entries next cd).2.identities,
          c.name = e.2.displayName ∧ c.userContextId = some e.2.containerID) ∧
      ((∀ e ∈ entries,
          (findContainerByName cd.identities e.2.displayName).isSome = true) →
        (processProfiles maps entries next cd).2 = cd) := by
  intro entries
  induction entries with
  | nil =>
    intro next cd
    refine ⟨rfl,
      ⟨[], (List.append_nil _).symm, rfl, fun c hc => absurd hc (List.not_mem_nil c)⟩,
      ?_, ?_⟩
    · intro e he
      exact absurd he (List.not_mem_nil e)
    · intro _
      rfl
  | cons ep rest ih =>
    obtain ⟨n, p⟩ := ep
    intro next cd
    cases hf : findContainerByName cd.identities p.displayName with
    | some ex =>
      have hcons : processProfiles maps ((n, p) :: rest) next cd =
          ((n, { p with containerID := ex.GetUserContextID }) ::
            (processProfiles maps rest next cd).1,
           (processProfiles maps rest next cd).2) := by
        simp only [processProfiles, hf]
      obtain ⟨ih1, ⟨created, hidar, hids, hpub⟩, ih3, ih4⟩ := ih next cd
      refine ⟨?_, ⟨created, ?_, hids, hpub⟩, ?_, ?_⟩
      · rw [hcons, List.map_cons, List.map_cons, ih1]
      · rw [hcons]
        exact hidar
      · rw [hcons]
        intro e he
        rcases List.mem_cons.mp he with heq | hrest
        · subst heq
          obtain ⟨hmem, hname, v, hv, hpos, hget⟩ :=
            findContainerByName_props _ _ _ hf
          refine ⟨ex, ?_, hname, ?_⟩
          · rw [hidar]
            exact List.mem_append_left _ hmem
          · show ex.userContextId = some ex.GetUserContextID
            rw [hget]
            exact hv
        · exact ih3 e hrest
      · intro hall
        rw [hcons]
        exact ih4 (fun e he => hall e (List.mem_cons_of_mem _ he))
    | none =>
      obtain ⟨ih1, ⟨created, hidar, hids, hpub⟩, ih3, ih4⟩ :=
        ih (next + 1)
          { cd with
            identities := cd.identities ++
              [{ userContextId := some next, name := p.displayName,
                 icon := maps.mapArcIconToContainerIcon p.icon,
                 color := maps.mapArcColorToZen p.color,
                 public := true, l10nId := "", accessKey := "" }],
            lastUserContextId := some next }
      have hcons : processProfiles maps ((n, p) :: rest) next cd =
          ((n, { p with containerID := next }) ::
            (processProfiles maps rest (next + 1)
              { cd with
                identities := cd.identities ++
                  [{ userContextId := some next, name := p.displayName,
                     icon := maps.mapArcIconToContainerIcon p.icon,
                     color := maps.mapArcColorToZen p.color,
                     public := true, l10nId := "", accessKey := "" }],
                lastUserContextId := some next }).1,
           (processProfiles maps rest (next + 1)
              { cd with
                identities := cd.identities ++
                  [{ userContextId := some next, name := p.displayName,
                     icon := maps.mapArcIconToContainerIcon p.icon,
                     color := maps.mapArcColorToZen p.color,
                     public := true, l10nId := "", accessKey := "" }],
                lastUserContextId := some next }).2) := by
        simp only [processProfiles, hf]
      refine ⟨?_,
        ⟨{ userContextId := some next, name := p.displayName,
           icon := maps.mapArcIconToContainerIcon p.icon,
           color := maps.mapArcColorToZen p.color,
           public := true, l10nId := "", accessKey := "" } :: created,
         ?_, ?_, ?_⟩, ?_, ?_⟩
      · rw [hcons, List.map_cons, List.map_cons, ih1]
      · rw [hcons]
        show (processProfiles maps rest (next + 1) _).2.identities = _
        rw [hidar]
        show cd.identities ++ [_] ++ created = _
        rw [List.append_assoc]
        rfl
      · rw [List.map_cons, hids, List.length_cons, List.range_succ_eq_map,
          List.map_cons]
        congr 1
        · show some next = some (next + ((0 : Nat) : Int))
          simp
        · rw [List.map_map]
          apply List.map_congr_left
          intro k hk
          show some (next + 1 + (k : Int)) = some (next + ((k + 1 : Nat) : Int))
          congr 1
          push_cast
          ring
      · intro c hc
        rcases List.mem_cons.mp hc with heq | hrest
        · subst heq
          rfl
        · exact hpub c hrest
      · rw [hcons]
        intro e he
        rcases List.mem_cons.mp he with heq | hrest
        · subst heq
          refine ⟨{ userContextId := some next, name := p.displayName,
                      icon := maps.mapArcIconToContainerIcon p.icon,
                      color := maps.mapArcColorToZen p.color,
                      public := true, l10nId := "", accessKey := "" },
            ?_, rfl, rfl⟩
          rw [hidar]
          show _ ∈ cd.identities ++ [_] ++ created
          exact List.mem_append_left _
            (List.mem_append_right _ (List.mem_singleton.mpr rfl))
        · exact ih3 e hrest
      · intro hall
        have hh : (findContainerByName cd.identities p.displayName).isSome = true :=
          hall (n, p) (List.mem_cons_self _ _)
        rw [hf] at hh
        cases hh

theorem collectAux_mem (spaces : List ArcSpace) :
    ∀ (acc : List (String × ProfileInfo) × Nat) (pn : String) (pi : ProfileInfo),
      (pn, pi) ∈ (spaces.foldl
        (fun acc space =>
          let profileName := getProfileName space
          if (acc.1.find? (fun e => e.1 == profileName)).isSome then acc
          else
            let displayName :=
              if space.title == "" then profileName else space.title
            let color := containerColors.getD (acc.2 % containerColors.length) ""
            (acc.1 ++ [(profileName,
              { name := profileName, displayName := displayName,
                containerID := 0, icon := spaceArcIcon space,
                color := color })], acc.2 + 1))
        acc).1 →
      (pn, pi) ∈ acc.1 ∨
        (acc.1.find? (fun e => e.1 == pn) = none ∧
          ∃ sp, spaces.find? (fun s => getProfileName s == pn) = some sp ∧
            pi.name = pn ∧
            pi.displayName = (if sp.title == "" then pn else sp.title)) := by
  induction spaces with
  | nil =>
    intro acc pn pi h
    exact Or.inl h
  | cons sp rest ih =>
    intro acc pn pi h
    rw [List.foldl_cons] at h
    by_cases hskip :
        ((acc.1.find? (fun e => e.1 == getProfileName sp)).isSome) = true
    · rw [if_pos hskip] at h
      rcases ih acc pn pi h with hl | ⟨hnone, sp2, hfind, hni, hdi⟩
      · exact Or.inl hl
      · by_cases hpn : getProfileName sp = pn
        · rw [hpn] at hskip
          rw [hnone] at hskip
          cases hskip
        · refine Or.inr ⟨hnone, sp2, ?_, hni, hdi⟩
          rw [List.find?_cons_of_neg]
          · exact hfind
          · intro hc
            exact hpn (eq_of_beq hc)
    · rw [if_neg hskip] at h
      have hnone0 : acc.1.find? (fun e => e.1 == getProfileName sp) = none :=
        Option.not_isSome_iff_eq_none.mp hskip
      rcases ih _ pn pi h with hl | ⟨hnone, sp2, hfind, hni, hdi⟩
      · rcases List.mem_append.mp hl with hacc | hnew
        · exact Or.inl hacc
        · have hpair := List.mem_singleton.mp hnew
          have hpn : pn = getProfileName sp := congrArg Prod.fst hpair
          have hpi : pi =
              { name := getProfileName sp,
                displayName :=
                  if sp.title == "" then getProfileName sp else sp.title,
                containerID := 0, icon := spaceArcIcon sp,
                color := containerColors.getD
                  (acc.2 % containerColors.length) "" } :=
            congrArg Prod.snd hpair
          refine Or.inr ⟨?_, sp, ?_, ?_, ?_⟩
          · rw [hpn]
            exact hnone0
          · rw [List.find?_cons_of_pos]
            rw [hpn]
            exact beq_self_eq_true _
          · rw [hpi, hpn]
          · rw [hpi, hpn]
      · have hacc1 : acc.1.find? (fun e => e.1 == pn) = none := by
          have := hnone
          rw [List.find?_append] at this
          exact (Option.or_eq_none.mp this).1
        have hsing : (List.find?
            (fun (e : String × ProfileInfo) => e.1 == pn)
            [(getProfileName sp,
              { name := getProfileName sp,
                displayName :=
                  if sp.title == "" then getProfileName sp else sp.title,
                containerID := 0, icon := spaceArcIcon sp,
                color := containerColors.getD
                  (acc.2 % containerColors.length) "" })]) = none := by
          have := hnone
          rw [List.find?_append] at this
          exact (Option.or_eq_none.mp this).2
        have hpn : ¬ getProfileName sp = pn := by
          intro hc
          rw [List.find?_cons_of_pos] at hsing
          · cases hsing
          · show (getProfileName sp == pn) = true
            exact beq_iff_eq.mpr hc
        refine Or.inr ⟨hacc1, sp2, ?_, hni, hdi⟩
        rw [List.find?_cons_of_neg]
        · exact hfind
        · intro hc
          exact hpn (eq_of_beq hc)

theorem collectAux_keys_nodup (spaces : List ArcSpace)
    (acc : List (String × ProfileInfo) × Nat)
    (hacc : (acc.1.map Prod.fst).Nodup) :
    (((spaces.foldl
        (fun acc space =>
          let profileName := getProfileName space
          if (acc.1.find? (fun e => e.1 == profileName)).isSome then acc
          else
            let displayName :=
              if space.title == "" then profileName else space.title
            let color := containerColors.getD (acc.2 % containerColors.length) ""
            (acc.1 ++ [(profileName,
              { name := profileName, displayName := displayName,
                containerID := 0, icon := spaceArcIcon space,
                color := color })], acc.2 + 1))
        acc).1).map Prod.fst).Nodup := by
  refine foldl_pres
    (fun (a : List (String × ProfileInfo) × Nat) => (a.1.map Prod.fst).Nodup)
    _ ?_ spaces acc hacc
  intro b space hb
  by_cases hskip :
      ((b.1.find? (fun e => e.1 == getProfileName space)).isSome) = true
  · rw [if_pos hskip]
    exact hb
  · rw [if_neg hskip]
    have hnone : b.1.find? (fun e => e.1 == getProfileName space) = none :=
      Option.not_isSome_iff_eq_none.mp hskip
    rw [List.find?_eq_none] at hnone
    have hnm : getProfileName space ∉ b.1.map Prod.fst := by
      intro hc
      rcases List.mem_map.mp hc with ⟨e, he, hfst⟩
      exact hnone e he (beq_iff_eq.mpr hfst)
    show ((b.1 ++ [_]).map Prod.fst).Nodup
    rw [List.map_append, List.map_cons, List.map_nil, ← List.concat_eq_append]
    exact List.Nodup.concat hnm hb

/-- Claim C8, amended.  Unique-profile collection: the collected profile map
has pairwise-distinct keys (one entry per distinct profile name), each entry
keyed by its profile name with display name derived from the *first* space
using that profile (that space's title, or the profile name if the title is
empty).  Allocation: the allocator keeps the profile keys (in iteration
order); the final registry is the original registry plus a block of created
identities, all public, carrying the consecutive ids `next`, `next + 1`, …
where `next` is the threaded starting id; every assigned profile points to a
registry identity whose name is the profile's display name and whose id is
exactly the profile's assigned container id; and when every profile's
display name already matches some registry identity with a valid positive id
(`findContainerByName`, which ignores the `public` flag), the registry is
returned unchanged — no identity is created. -/
theorem C8_allocator (maps : Mappings) (entries : List (String × ProfileInfo))
    (next : Int) (cd : ContainersData) (spaces : List ArcSpace) :
    ((processProfiles maps entries next cd).1.map Prod.fst =
      entries.map Prod.fst) ∧
    (∃ created : List ContainerIdentity,
      (processProfiles maps entries next cd).2.identities =
        cd.identities ++ created ∧
      created.map (fun c => c.userContextId) =
        (List.range created.length).map (fun (k : Nat) => some (next + (k : Int))) ∧
      (∀ c ∈ created, c.public = true)) ∧
    (∀ e ∈ (processProfiles maps entries next cd).1,
      ∃ c ∈ (processProfiles maps entries next cd).2.identities,
        c.name = e.2.displayName ∧ c.userContextId = some e.2.containerID) ∧
    ((∀ e ∈ entries,
        (findContainerByName cd.identities e.2.displayName).isSome = true) →
      (processProfiles maps entries next cd).2 = cd) ∧
    ((collectUniqueProfiles spaces).map Prod.fst).Nodup ∧
    (∀ (pn : String) (pi : ProfileInfo), (pn, pi) ∈ collectUniqueProfiles spaces →
      pi.name = pn ∧
      ∃ sp, spaces.find? (fun s => getProfileName s == pn) = some sp ∧
        pi.displayName = (if sp.title == "" then pn else sp.title)) := by
  obtain ⟨h1, h2, h3, h4⟩ := processProfiles_spec maps entries next cd
  refine ⟨h1, h2, h3, h4, ?_, ?_⟩
  · exact collectAux_keys_nodup spaces ([], 0) List.nodup_nil
  · intro pn pi hmem
    rcases collectAux_mem spaces ([], 0) pn pi hmem with hl | ⟨_, sp, hfind, hni, hdi⟩
    · exact absurd hl (List.not_mem_nil _)
    · exact ⟨hni, sp, hfind, hdi⟩

/-- Claim C8 witness (for the amended theorem): one profile displayed "F"
against a registry holding the valid public identity named "F": every
profile matches, so the registry is returned unchanged. -/
theorem C8_witness :
    (processProfiles idMappings
        [("default",
          { name := "default", displayName := "F", containerID := 0,
            icon := "", color := "" })] 4
        { version := 5, lastUserContextId := none,
          identities := [validPublicIdentity] }).2 =
      { version := 5, lastUserContextId := none,
        identities := [validPublicIdentity] } :=
  (C8_allocator idMappings
    [("default",
      { name := "default", displayName := "F", containerID := 0,
        icon := "", color := "" })] 4
    { version := 5, lastUserContextId := none,
      identities := [validPublicIdentity] } []).2.2.2.1 (by decide)

end ArcToZen
